import Mathlib

/-!
Shallow embedding of the LLMWS inference client (`llmws-runner.ts`):
message framing and the per-connection message queue, the inference-attempt
state machine (welcome wait, token streaming, token-budget retry workaround),
capability-based target ordering, failover orchestration, request-prompt
assembly, and transcript persistence.

Modelling conventions:
* JavaScript string values are Lean `String`s; `String.prototype.trim` is
  modelled by `jsTrim` (whitespace = `Char.isWhitespace`).
* Finite JavaScript numbers are modelled as integers (`ℤ`): every numeric
  field of this protocol is a token count, and on integers `Math.floor` is
  the identity (modelled as such).  A non-finite number is the dedicated
  constructor `jnan` (so `readNumber` rejects it, as the source rejects
  non-finite numbers via `Number.isFinite`).
* Real time is modelled as integer milliseconds (`ℤ`), matching `Date.now`.
  A received WebSocket message is a pair of its arrival time and its parsed
  payload.  `queue.next(timeout)` returns the next message of the trace if it
  arrives no later than the current deadline, and fails with the read-timeout
  error otherwise.
* Randomness (`randomUUID`) and the wall clock are passed in as parameters.
-/

namespace Zigbot

/-- JSON-shaped field values as far as the client inspects them.
`jnan` stands for a numeric field whose value is not finite. -/
inductive JVal where
  | jstr (s : String)
  | jnum (q : ℤ)
  | jnan
  | jbool (b : Bool)
  | jnull
deriving DecidableEq, Repr

/-- A decoded inbound protocol frame: a string-keyed record
(`LlmwsParsedMessage` in the source). -/
abbrev ParsedMessage := List (String × JVal)

/-- Field lookup in a parsed record (first binding wins, as in a JS object). -/
def lookupField (m : ParsedMessage) (key : String) : Option JVal :=
  (m.find? (fun kv => kv.1 == key)).map (fun kv => kv.2)

/-- Characters removed by `String.prototype.trim` (modelled as Lean whitespace). -/
def wsChar (c : Char) : Bool := c.isWhitespace

/-- Drop leading and trailing whitespace from a character list. -/
def trimChars (l : List Char) : List Char :=
  ((l.dropWhile wsChar).reverse.dropWhile wsChar).reverse

/-- Model of `String.prototype.trim`. -/
def jsTrim (s : String) : String :=
  String.mk (trimChars s.data)

/-- Model of `String.prototype.toLowerCase` (character-wise case folding). -/
def jsToLower (s : String) : String :=
  String.mk (s.data.map Char.toLower)

/-- Model of `readString`: a string field, trimmed, empty mapped to `none`. -/
def readString (m : ParsedMessage) (key : String) : Option String :=
  match lookupField m key with
  | some (JVal.jstr s) =>
    let t := jsTrim s
    if t = "" then none else some t
  | _ => none

/-- Model of `readNumber`: a finite numeric field. -/
def readNumber (m : ParsedMessage) (key : String) : Option ℤ :=
  match lookupField m key with
  | some (JVal.jnum q) => some q
  | _ => none

/-- Model of `readBoolean`. -/
def readBoolean (m : ParsedMessage) (key : String) : Option Bool :=
  match lookupField m key with
  | some (JVal.jbool b) => some b
  | _ => none

/-- `LlmwsGenerationConfig`: optional generation knobs. -/
structure LlmwsGenerationConfig where
  max_new_tokens : Option ℤ := none
  temperature : Option ℤ := none
  top_p : Option ℤ := none
  top_k : Option ℤ := none
  repetition_penalty : Option ℤ := none
  do_sample : Option Bool := none
deriving DecidableEq, Repr

/-- `usage` of `LlmwsRunAttemptResult`. -/
structure LlmwsUsage where
  input : Option ℤ
  output : Option ℤ
  total : Option ℤ
deriving DecidableEq, Repr

/-- `LlmwsRunAttemptResult`. -/
structure LlmwsRunAttemptResult where
  text : String
  sessionId : Option String
  usage : Option LlmwsUsage
deriving DecidableEq, Repr

/-- A message received on one connection: arrival time (ms) and payload. -/
abbrev TimedFrame := ℤ × ParsedMessage

/-- Outcome of the welcome-wait phase of `runLlmwsAttempt`. -/
inductive WelcomePhaseResult where
  | ok (sessionId : Option String) (now : ℤ) (rest : List TimedFrame)
  | fail (msg : String)
deriving DecidableEq, Repr

/-- The read-timeout error raised by `LlmwsMessageQueue.next`. -/
def readTimeoutMsg (timeoutMs : ℤ) : String :=
  "LLMWS read timeout (" ++ toString timeoutMs ++ "ms)"

/-- Welcome-wait phase of `runLlmwsAttempt`: consume messages until one has
`type == "welcome"`, under the fixed deadline `welcomeDeadline` computed once
as `Date.now() + readTimeoutMs` right after the hello payload is sent.
Returns the welcome frame's (optional) `session_id`, the receipt time of the
welcome frame and the unconsumed rest of the trace. -/
def welcomeLoop (welcomeDeadline : ℤ) : ℤ → List TimedFrame → WelcomePhaseResult
  | now, [] =>
    if welcomeDeadline - now ≤ 0 then WelcomePhaseResult.fail "LLMWS welcome timeout"
    else WelcomePhaseResult.fail (readTimeoutMsg (welcomeDeadline - now))
  | now, (t, msg) :: rest =>
    if welcomeDeadline - now ≤ 0 then WelcomePhaseResult.fail "LLMWS welcome timeout"
    else if welcomeDeadline < t then
      WelcomePhaseResult.fail (readTimeoutMsg (welcomeDeadline - now))
    else if readString msg "type" = some "welcome" then
      WelcomePhaseResult.ok (readString msg "session_id") (max now t) rest
    else welcomeLoop welcomeDeadline (max now t) rest

/-- The diagnostic raised when the server reports a broken token budget but no
`maxNewTokens` was configured. -/
def budgetInvalidMsg (tokensIn maxTokens : ℤ) : String :=
  "LLMWS server token budget invalid (tokens_in=" ++ toString tokensIn ++
    ", max_tokens=" ++ toString maxTokens ++
    "). Configure llmws.config.maxNewTokens (or update llmws_server.py)."

/-- Outcome of the streaming phase of `runLlmwsAttempt`. -/
inductive StreamPhaseResult where
  | ok (text : String) (inputTokens outputTokens : Option ℤ)
  | retryBudget (gen : LlmwsGenerationConfig)
  | fail (msg : String)
deriving DecidableEq, Repr

/-- Streaming phase of `runLlmwsAttempt` (the `while (!done)` loop): an idle
deadline that is re-armed to `Date.now() + readTimeoutMs` after every received
message; `start` records `tokens_in` and may trigger the one-shot token-budget
retry; `token` appends its string `data` payload verbatim; `done` captures
`total_tokens` and completes; `error` fails with the server message; any other
frame type is skipped.  In the retry branch the source computes
`Math.floor(tokensIn * 2 + desiredNewTokens)`, which on the integer number
model is `ti * 2 + d` itself. -/
def streamLoop (readTimeoutMs : ℤ) (gen : LlmwsGenerationConfig) (retried : Bool) :
    ℤ → ℤ → Option ℤ → Option ℤ → String → List TimedFrame → StreamPhaseResult
  | now, deadline, _, _, _, [] =>
    if deadline - now ≤ 0 then StreamPhaseResult.fail "LLMWS stream timeout"
    else StreamPhaseResult.fail (readTimeoutMsg (deadline - now))
  | now, deadline, inputTokens, outputTokens, text, (t, msg) :: rest =>
    if deadline - now ≤ 0 then StreamPhaseResult.fail "LLMWS stream timeout"
    else if deadline < t then StreamPhaseResult.fail (readTimeoutMsg (deadline - now))
    else
      let rnow := max now t
      let rdl := rnow + readTimeoutMs
      let ty := readString msg "type"
      if ty = some "start" then
        let tokensIn := readNumber msg "tokens_in"
        let maxTokens := readNumber msg "max_tokens"
        let inputTokens2 := match tokensIn with
          | some v => some v
          | none => inputTokens
        match tokensIn, maxTokens with
        | some ti, some mt =>
          if ¬retried ∧ 0 < ti ∧ mt ≤ ti then
            match gen.max_new_tokens with
            | some d =>
              if 0 < d then
                StreamPhaseResult.retryBudget
                  { gen with max_new_tokens := some (ti * 2 + d) }
              else StreamPhaseResult.fail (budgetInvalidMsg ti mt)
            | none => StreamPhaseResult.fail (budgetInvalidMsg ti mt)
          else
            streamLoop readTimeoutMs gen retried rnow rdl inputTokens2 outputTokens text rest
        | _, _ =>
          streamLoop readTimeoutMs gen retried rnow rdl inputTokens2 outputTokens text rest
      else if ty = some "token" then
        let text2 := match lookupField msg "data" with
          | some (JVal.jstr s) => text ++ s
          | _ => text
        streamLoop readTimeoutMs gen retried rnow rdl inputTokens outputTokens text2 rest
      else if ty = some "done" then
        let outputTokens2 := match readNumber msg "total_tokens" with
          | some v => some v
          | none => outputTokens
        StreamPhaseResult.ok text inputTokens outputTokens2
      else if ty = some "error" then
        StreamPhaseResult.fail
          (match readString msg "message" with
            | some m => m
            | none => "LLMWS returned an error")
      else
        streamLoop readTimeoutMs gen retried rnow rdl inputTokens outputTokens text rest

/-- Input to one connection attempt: either the socket open fails (with the
error message the open rejects with), or it opens at time `t0` and the server
then delivers `trace`. -/
inductive ConnScript where
  | connectFail (msg : String)
  | connected (t0 : ℤ) (trace : List TimedFrame)
deriving DecidableEq, Repr

/-- Outcome of one iteration of the connection loop inside `runLlmwsAttempt`. -/
inductive ConnOutcome where
  | ok (r : LlmwsRunAttemptResult)
  | retry (gen : LlmwsGenerationConfig)
  | err (msg : String)
deriving DecidableEq, Repr

/-- Whether a connection outcome is the budget-retry transition. -/
def ConnOutcome.isRetry : ConnOutcome → Bool
  | ConnOutcome.retry _ => true
  | _ => false

/-- The `usage` record assembled after a completed stream
(source lines computing `usage` from `inputTokens`/`outputTokens`). -/
def mkUsage (inputTokens outputTokens : Option ℤ) : Option LlmwsUsage :=
  if inputTokens.isSome || outputTokens.isSome then
    some
      { input := inputTokens
        output := outputTokens
        total :=
          if 0 < inputTokens.getD 0 + outputTokens.getD 0 then
            some (inputTokens.getD 0 + outputTokens.getD 0)
          else none }
  else none

/-- One iteration of the connection loop of `runLlmwsAttempt`: open the socket,
send the hello payload, wait for the welcome frame (fixed deadline
`t0 + readTimeoutMs`), send the inference request, then run the streaming
phase (idle deadline).  `freshId` stands for the `randomUUID()` session id
synthesized when the welcome carries none. -/
def attemptConn (readTimeoutMs : ℤ) (freshId : String) (gen : LlmwsGenerationConfig)
    (retried : Bool) : ConnScript → ConnOutcome
  | ConnScript.connectFail msg => ConnOutcome.err msg
  | ConnScript.connected t0 trace =>
    match welcomeLoop (t0 + readTimeoutMs) t0 trace with
    | WelcomePhaseResult.fail e => ConnOutcome.err e
    | WelcomePhaseResult.ok sidOpt now1 rest =>
      let sessionId := match sidOpt with
        | some s => s
        | none => freshId
      match streamLoop readTimeoutMs gen retried now1 (now1 + readTimeoutMs)
          none none "" rest with
      | StreamPhaseResult.fail e => ConnOutcome.err e
      | StreamPhaseResult.retryBudget g => ConnOutcome.retry g
      | StreamPhaseResult.ok text inputTokens outputTokens =>
        ConnOutcome.ok
          { text := jsTrim text
            sessionId := some sessionId
            usage := mkUsage inputTokens outputTokens }

/-- `runLlmwsAttempt`: at most two connection attempts against the same target
(`for attemptIndex < 2`), the second one only after the one-shot token-budget
retry, with the recomputed generation config and `retriedForTokenBudget`
set. -/
def runLlmwsAttempt (readTimeoutMs : ℤ) (freshId1 freshId2 : String)
    (gen0 : LlmwsGenerationConfig) (s1 s2 : ConnScript) :
    Except String LlmwsRunAttemptResult :=
  match attemptConn readTimeoutMs freshId1 gen0 false s1 with
  | ConnOutcome.ok r => Except.ok r
  | ConnOutcome.err e => Except.error e
  | ConnOutcome.retry g =>
    match attemptConn readTimeoutMs freshId2 g true s2 with
    | ConnOutcome.ok r => Except.ok r
    | ConnOutcome.err e => Except.error e
    | ConnOutcome.retry _ =>
      Except.error "LLMWS retry failed: server did not accept adjusted token budget"

/-- Substring test on character lists (model of `String.prototype.includes`). -/
def listHasSeq : List Char → List Char → Bool
  | _, [] => true
  | [], _ :: _ => false
  | a :: as, b :: bs => (b :: bs).isPrefixOf (a :: as) || listHasSeq as (b :: bs)

/-- Model of `big.includes(small)` on JS strings. -/
def containsSub (big small : String) : Bool := listHasSeq big.data small.data

/-- Model of `value.replace(/\\/g, "/")`. -/
def slashNormalize (s : String) : String :=
  String.mk (s.data.map (fun c => if c = '\\' then '/' else c))

/-- Model of the regex `^([a-z]+):\/(.+)$` (case-insensitive) used by
`toWsUrl`: a leading letter run, a colon, a single slash, and a nonempty
remainder. -/
def schemeSingleSlash (l : List Char) : Option (List Char × List Char) :=
  let scheme := l.takeWhile (fun c => c.isAlpha)
  match l.drop scheme.length with
  | ':' :: '/' :: r =>
    if scheme = [] ∨ r = [] then none else some (scheme, r)
  | _ => none

/-- Model of `toWsUrl`: trim, convert backslashes to slashes, accept
already-schemed URIs, repair `scheme:/host` typos, otherwise prepend `ws://`
and strip leading slashes. -/
def toWsUrl (value : String) : String :=
  let trimmed := jsTrim value
  if trimmed = "" then ""
  else
    let slashed := slashNormalize trimmed
    if containsSub slashed "://" then slashed
    else
      match schemeSingleSlash slashed.data with
      | some (scheme, rest) =>
        String.mk (scheme.map Char.toLower) ++ "://" ++
          String.mk (rest.dropWhile (fun c => c = '/'))
      | none => "ws://" ++ String.mk (slashed.data.dropWhile (fun c => c = '/'))

/-- Helper for `normalizeCapabilityTag`: model of `replace(/\s+/g, "-")`,
collapsing each maximal whitespace run into a single dash. -/
def collapseWsDashGo (prevWs : Bool) : List Char → List Char
  | [] => []
  | c :: rest =>
    if wsChar c then
      if prevWs then collapseWsDashGo true rest
      else '-' :: collapseWsDashGo true rest
    else c :: collapseWsDashGo false rest

/-- Model of `normalizeCapabilityTag`: trim, lower-case, collapse whitespace
runs to dashes. -/
def normalizeCapabilityTag (value : String) : String :=
  let trimmed := jsToLower (jsTrim value)
  if trimmed = "" then ""
  else String.mk (collapseWsDashGo false trimmed.data)

/-- Helper for `dedupeCapabilityTags` (the `seen` set is the list of tags
already emitted). -/
def dedupeCapabilityTagsGo (seen : List String) : List String → List String
  | [] => []
  | raw :: rest =>
    let normalized := normalizeCapabilityTag raw
    if normalized = "" ∨ normalized ∈ seen then dedupeCapabilityTagsGo seen rest
    else normalized :: dedupeCapabilityTagsGo (normalized :: seen) rest

/-- Model of `dedupeCapabilityTags`: normalize, drop empties and duplicates,
first occurrence wins. -/
def dedupeCapabilityTags (values : List String) : List String :=
  dedupeCapabilityTagsGo [] values

/-- `LlmwsTarget`: one candidate endpoint with capability tags. -/
structure LlmwsTarget where
  url : String
  capabilities : List String
deriving DecidableEq, Repr

/-- Helper for `dedupeTargets`. -/
def dedupeTargetsGo (seen : List String) : List LlmwsTarget → List LlmwsTarget
  | [] => []
  | raw :: rest =>
    let value := toWsUrl raw.url
    if value = "" ∨ value ∈ seen then dedupeTargetsGo seen rest
    else
      { url := value, capabilities := dedupeCapabilityTags raw.capabilities } ::
        dedupeTargetsGo (value :: seen) rest

/-- Model of `dedupeTargets`: normalize each URL, drop empties, deduplicate by
normalized URL with the first occurrence winning. -/
def dedupeTargets (values : List LlmwsTarget) : List LlmwsTarget :=
  dedupeTargetsGo [] values

/-- Helper for `dedupStrings`. -/
def dedupStringsGo (seen : List String) : List String → List String
  | [] => []
  | x :: rest =>
    if x ∈ seen then dedupStringsGo seen rest
    else x :: dedupStringsGo (x :: seen) rest

/-- First-occurrence deduplication, the insertion-order semantics of a JS
`Set` built from a list. -/
def dedupStrings (l : List String) : List String := dedupStringsGo [] l

/-- The normalized preferred-tag set built inside `sortTargetsByCapabilities`
(`new Set(preferred.map(normalizeCapabilityTag))`). -/
def preferredTagSet (preferred : List String) : List String :=
  dedupStrings (preferred.map normalizeCapabilityTag)

/-- Number of preferred tags matched by a target
(`Array.from(preferredSet).filter((tag) => caps.has(tag)).length`). -/
def capMatchCountIn (pset : List String) (t : LlmwsTarget) : ℕ :=
  (pset.filter (fun tag => tag ∈ t.capabilities.map normalizeCapabilityTag)).length

/-- The comparator passed to `toSorted` in `sortTargetsByCapabilities`. -/
def targetCmp (preferred : List String) (left right : LlmwsTarget) : ℤ :=
  let pset := preferredTagSet preferred
  let leftMatches := capMatchCountIn pset left
  let rightMatches := capMatchCountIn pset right
  let leftAll : Bool := leftMatches == pset.length
  let rightAll : Bool := rightMatches == pset.length
  if leftAll ≠ rightAll then (if leftAll then -1 else 1)
  else if leftMatches ≠ rightMatches then (rightMatches : ℤ) - (leftMatches : ℤ)
  else 0

/-- The weak order induced by the comparator (`comparator(l, r) <= 0`,
i.e. `l` may come no later than `r`). -/
def targetLe (preferred : List String) (left right : LlmwsTarget) : Bool :=
  decide (targetCmp preferred left right ≤ 0)

/-- Model of `sortTargetsByCapabilities`: `toSorted` is a stable sort by the
comparator, modelled as `List.mergeSort` with `targetLe`. -/
def sortTargetsByCapabilities (targets : List LlmwsTarget) (preferred : List String) :
    List LlmwsTarget :=
  if preferred.length = 0 ∨ targets.length ≤ 1 then targets
  else targets.mergeSort (targetLe preferred)

/-- State of `LlmwsMessageQueue`: buffered messages, queued waiters
(identified by tokens, in arrival order) and the sticky terminal error. -/
structure QueueState where
  queue : List ParsedMessage
  waiters : List ℕ
  terminalError : Option String
deriving DecidableEq, Repr

/-- What a `next()` call observes synchronously. -/
inductive NextOutcome where
  | delivered (m : ParsedMessage)
  | failed (e : String)
  | pending
deriving DecidableEq, Repr

/-- Model of `LlmwsMessageQueue.next`: deliver the oldest buffered message if
any, otherwise fail immediately on a recorded terminal error, otherwise
register as a waiter. -/
def queueNext (s : QueueState) (wid : ℕ) : QueueState × NextOutcome :=
  match s.queue with
  | m :: rest => ({ s with queue := rest }, NextOutcome.delivered m)
  | [] =>
    match s.terminalError with
    | some e => (s, NextOutcome.failed e)
    | none => ({ s with waiters := s.waiters ++ [wid] }, NextOutcome.pending)

/-- Model of `LlmwsMessageQueue.push`: resolve the oldest waiter if any,
otherwise buffer the message.  The second component is the waiter resolved
with the message, if any. -/
def queuePush (s : QueueState) (m : ParsedMessage) : QueueState × Option (ℕ × ParsedMessage) :=
  match s.waiters with
  | w :: rest => ({ s with waiters := rest }, some (w, m))
  | [] => ({ s with queue := s.queue ++ [m] }, none)

/-- Model of `LlmwsMessageQueue.fail`: record the error only if none is
recorded yet, then reject every queued waiter with the recorded (first)
error.  The second component lists the rejections delivered. -/
def queueFail (s : QueueState) (e : String) : QueueState × List (ℕ × String) :=
  let first := match s.terminalError with
    | some e0 => e0
    | none => e
  ({ s with terminalError := some first, waiters := [] },
    s.waiters.map (fun w => (w, first)))

/-- Model of a waiter's timer firing: the waiter removes itself from the
queue (`indexOf`/`splice`) and rejects with the read-timeout error. -/
def queueTimerFire (s : QueueState) (wid : ℕ) : QueueState :=
  { s with waiters := s.waiters.erase wid }

/-- Events that can happen to a message queue. -/
inductive QueueEvent where
  | push (m : ParsedMessage)
  | failE (e : String)
  | nextE (wid : ℕ)
  | timer (wid : ℕ)

/-- State transition of the queue under one event. -/
def queueStep (s : QueueState) : QueueEvent → QueueState
  | QueueEvent.push m => (queuePush s m).1
  | QueueEvent.failE e => (queueFail s e).1
  | QueueEvent.nextE w => (queueNext s w).1
  | QueueEvent.timer w => queueTimerFire s w

/-- Run a sequence of events against the queue. -/
def queueRun (s : QueueState) (evs : List QueueEvent) : QueueState :=
  evs.foldl queueStep s

/-- Model of `Array.prototype.join`. -/
def joinSep (sep : String) : List String → String
  | [] => ""
  | [x] => x
  | x :: y :: rest => x ++ sep ++ joinSep sep (y :: rest)

/-- The failover loop of `runLlmwsAgent`: attempt each target in order,
stopping at the first success and accumulating `url: message` error entries.
`attemptOf` stands for `runLlmwsAttempt` applied to a target URL; the third
result component records which target URLs were invoked, in order. -/
def runTargetsGo (attemptOf : String → Except String LlmwsRunAttemptResult) :
    List LlmwsTarget → List String → List String →
    Option LlmwsRunAttemptResult × List String × List String
  | [], errs, invoked => (none, errs, invoked)
  | t :: rest, errs, invoked =>
    match attemptOf t.url with
    | Except.ok r => (some r, errs, invoked ++ [t.url])
    | Except.error e =>
      runTargetsGo attemptOf rest (errs ++ [t.url ++ ": " ++ e]) (invoked ++ [t.url])

/-- The failover loop started on the resolved target list. -/
def runTargets (attemptOf : String → Except String LlmwsRunAttemptResult)
    (targets : List LlmwsTarget) :
    Option LlmwsRunAttemptResult × List String × List String :=
  runTargetsGo attemptOf targets [] []

/-- The message of the error thrown when every endpoint failed. -/
def llmwsFailureMessage (errs : List String) : String :=
  if 0 < errs.length then "LLMWS endpoints failed: " ++ joinSep " | " errs
  else "LLMWS endpoints failed"

/-- The failure taxonomy surfaced to callers. -/
inductive FailoverReason where
  | rate_limit
  | timeout
  | auth
  | billing
  | unknown
deriving DecidableEq, Repr

/-- Modelled from the spec: `classifyFailoverReason` is imported from
`pi-embedded-helpers.ts`, which is not among the sources.  Per the spec it
classifies the raw failure text by content matching: quota/429-style wording
maps to `rate_limit`, billing wording to `billing`, auth wording to `auth`,
and anything unrecognized to no classification. -/
def classifyFailoverReason (message : String) : Option FailoverReason :=
  let lower := jsToLower message
  if containsSub lower "quota" || containsSub lower "429" ||
      containsSub lower "rate limit" then some FailoverReason.rate_limit
  else if containsSub lower "billing" then some FailoverReason.billing
  else if containsSub lower "unauthorized" || containsSub lower "auth" then
    some FailoverReason.auth
  else none

/-- Model of `hasConnectivityHint` (the message-text matching; the `code`
property branch is not modelled because errors are carried as bare
messages here). -/
def hasConnectivityHint (message : String) : Bool :=
  let lower := jsToLower message
  containsSub lower "connect timeout" || containsSub lower "read timeout" ||
    containsSub lower "socket closed" || containsSub lower "connection closed" ||
    containsSub lower "econnrefused" || containsSub lower "econnreset" ||
    containsSub lower "timed out"

/-- `FailoverError` as far as this subsystem constructs it (the `status`
field, resolved by the out-of-scope `resolveFailoverStatus`, is omitted). -/
structure FailoverError where
  message : String
  reason : FailoverReason
  provider : String
  model : String
deriving DecidableEq, Repr

/-- Model of `toFailoverError` on an error message: trim the description,
default it when blank, classify by content, fall back to `timeout` on
connectivity-shaped text and `unknown` otherwise. -/
def toFailoverError (errMsg provider model : String) : FailoverError :=
  let message := if jsTrim errMsg = "" then "LLMWS request failed" else jsTrim errMsg
  let reason := match classifyFailoverReason message with
    | some r => r
    | none =>
      if hasConnectivityHint message then FailoverReason.timeout
      else FailoverReason.unknown
  { message := message, reason := reason, provider := provider, model := model }

/-- The failover orchestration of `runLlmwsAgent`: run the target loop; when
no target succeeded, throw the aggregated endpoint error, which the outer
catch converts through `toFailoverError`. -/
def runLlmwsAgentFailover (attemptOf : String → Except String LlmwsRunAttemptResult)
    (targets : List LlmwsTarget) (provider model : String) :
    Except FailoverError LlmwsRunAttemptResult :=
  match runTargets attemptOf targets with
  | (some r, _, _) => Except.ok r
  | (none, errs, _) =>
    Except.error (toFailoverError (llmwsFailureMessage errs) provider model)

/-- The `Current user request:` marker block. -/
def currentRequestMarker (prompt : String) : String :=
  "Current user request:\n" ++ prompt

/-- The user-prompt assembly of `runLlmwsAgent` (`promptParts`/`promptBody`):
push the history block and the memory block when present (JS truthiness, so
an empty string counts as absent), append the marker block only when some
part was pushed, and fall back to the raw prompt otherwise. -/
def buildPromptBody (historyContext memoryInjection : Option String) (prompt : String) :
    String :=
  let promptParts : List String :=
    (match historyContext with
      | some h => if h = "" then [] else [h]
      | none => []) ++
    (match memoryInjection with
      | some m => if m = "" then [] else [m]
      | none => [])
  let promptParts2 :=
    if 0 < promptParts.length then promptParts ++ [currentRequestMarker prompt]
    else promptParts
  if 0 < promptParts2.length then joinSep "\n\n" promptParts2 else prompt

/-- One pre-existing line of the transcript file, after splitting on newlines,
trimming and dropping blanks: either a line that fails `JSON.parse` (or is
not a record), or a parsed record. -/
inductive FileLine where
  | junk
  | record (m : ParsedMessage)
deriving DecidableEq, Repr

/-- One step of the scan over existing transcript lines in
`appendTranscriptMessages`: a record of type `session` sets `hasHeader`, a
record of type `message` with a nonempty id updates `lastMessageId`. -/
def scanTranscriptStep (acc : Bool × Option String) (line : FileLine) :
    Bool × Option String :=
  match line with
  | FileLine.junk => acc
  | FileLine.record m =>
    let hasHeader := acc.1 || decide (lookupField m "type" = some (JVal.jstr "session"))
    let lastId :=
      if lookupField m "type" = some (JVal.jstr "message") then
        match readString m "id" with
        | some id => some id
        | none => acc.2
      else acc.2
    (hasHeader, lastId)

/-- The scan over existing transcript lines in `appendTranscriptMessages`:
whether a `session` header line exists, and the id of the last `message`
line carrying a nonempty id. -/
def scanTranscriptLines (lines : List FileLine) : Bool × Option String :=
  lines.foldl scanTranscriptStep (false, none)

/-- Concrete transcript header line. -/
def headerLine : FileLine :=
  FileLine.record [("type", JVal.jstr "session"), ("id", JVal.jstr "sess-2")]

/-- Concrete transcript message line with the given id. -/
def messageLine (id : String) : FileLine :=
  FileLine.record [("type", JVal.jstr "message"), ("id", JVal.jstr id)]

/-- The (nonempty, trimmed) id a transcript line contributes when it is a
`message` record. -/
def messageLineId : FileLine → Option String
  | FileLine.junk => none
  | FileLine.record m =>
    if lookupField m "type" = some (JVal.jstr "message") then readString m "id"
    else none

/-- Specification-side reading of "the most recent prior message id": the
last record line of type `message` with a nonempty id. -/
def lastMessageIdSpec (lines : List FileLine) : Option String :=
  lines.reverse.findSome? messageLineId

/-- One `message` line written by `appendTranscriptMessages`. -/
structure TranscriptMessageLine where
  id : String
  parentId : Option String
  timestamp : String
  role : String
  text : String
deriving DecidableEq, Repr

/-- One line appended by `appendTranscriptMessages`. -/
inductive TranscriptNewLine where
  | header (version : ℕ) (id : String) (timestamp : String) (cwd : String)
  | message (m : TranscriptMessageLine)
deriving DecidableEq, Repr

/-- The `additions` array of `appendTranscriptMessages`: an optional `session`
header (version 7, only when none exists yet), a user `message` entry chained
to the last prior message id, and an assistant `message` entry chained to the
user entry.  `userId`/`assistantId` stand for the two `randomUUID()` calls and
`now`/`now2` for the two timestamps. -/
def transcriptAdditions (hasHeader : Bool) (lastMessageId : Option String)
    (sessionId now cwd userId assistantId now2 userText assistantText : String) :
    List TranscriptNewLine :=
  (if hasHeader then [] else [TranscriptNewLine.header 7 sessionId now cwd]) ++
    [TranscriptNewLine.message
      { id := userId, parentId := lastMessageId, timestamp := now,
        role := "user", text := userText },
     TranscriptNewLine.message
      { id := assistantId, parentId := some userId, timestamp := now2,
        role := "assistant", text := assistantText }]

/-- Modelled from the spec: `acquireSessionWriteLock` is imported from
`session-write-lock.ts`, which is not among the sources.  Per the spec the
scoped exclusive lock is keyed by file path and has its own bounded wait,
failing the acquisition (rather than deadlocking) when the lock cannot be
acquired in time.  `lockAvailableWithinTimeout` says whether the lock became
available within the 10 s bound. -/
def acquireSessionWriteLock (lockAvailableWithinTimeout : Bool) : Except String Unit :=
  if lockAvailableWithinTimeout then Except.ok ()
  else Except.error "session write lock timeout"

/-- Model of `appendTranscriptMessages`: acquire the lock (propagating its
failure), scan the existing lines, and append the additions. -/
def appendTranscriptMessages (lockAvailableWithinTimeout : Bool) (existing : List FileLine)
    (sessionId cwd userId assistantId now now2 userText assistantText : String) :
    Except String (List TranscriptNewLine) :=
  match acquireSessionWriteLock lockAvailableWithinTimeout with
  | Except.error e => Except.error e
  | Except.ok _ =>
    let scan := scanTranscriptLines existing
    Except.ok
      (transcriptAdditions scan.1 scan.2 sessionId now cwd userId assistantId now2
        userText assistantText)

/-- What the tail of `runLlmwsAgent` produces for the caller. -/
structure AgentRunOutcome where
  payloads : Option (List String)
  persistenceWarning : Option String
deriving DecidableEq, Repr

/-- The persistence step at the end of `runLlmwsAgent`: when the final text is
nonempty the transcript append runs inside a try/catch whose catch only logs
a warning — an append failure never fails the call. -/
def finishLlmwsRun (finalText : String)
    (appendOutcome : Except String (List TranscriptNewLine)) : AgentRunOutcome :=
  if finalText = "" then { payloads := none, persistenceWarning := none }
  else
    match appendOutcome with
    | Except.ok _ => { payloads := some [finalText], persistenceWarning := none }
    | Except.error e =>
      { payloads := some [finalText]
        persistenceWarning := some ("failed to persist llmws transcript: " ++ toString e) }

/-- Concatenation, in arrival order, of the string `data` payloads of the
`token` frames a streaming phase consumes before its first `done` frame. -/
def streamTokensText : List TimedFrame → String
  | [] => ""
  | (_, m) :: rest =>
    if readString m "type" = some "done" then ""
    else if readString m "type" = some "token" then
      (match lookupField m "data" with
        | some (JVal.jstr s) => s
        | _ => "") ++ streamTokensText rest
    else streamTokensText rest

/-- The `tokens_in` reported by the last `start` frame (with a finite numeric
`tokens_in`) consumed before the first `done` frame, starting from `acc`. -/
def streamInputTokens (acc : Option ℤ) : List TimedFrame → Option ℤ
  | [] => acc
  | (_, m) :: rest =>
    if readString m "type" = some "done" then acc
    else if readString m "type" = some "start" then
      streamInputTokens
        (match readNumber m "tokens_in" with
          | some v => some v
          | none => acc) rest
    else streamInputTokens acc rest

/-- The `total_tokens` reported by the first `done` frame, starting from
`acc`. -/
def streamOutputTokens (acc : Option ℤ) : List TimedFrame → Option ℤ
  | [] => acc
  | (_, m) :: rest =>
    if readString m "type" = some "done" then
      match readNumber m "total_tokens" with
      | some v => some v
      | none => acc
    else streamOutputTokens acc rest

/-- A prompt section counts as absent when it is `undefined` or the empty
string (JS truthiness). -/
def sectionAbsent : Option String → Prop
  | none => True
  | some s => s = ""

/-- The descending match score the capability sort orders by: full match of
all preferred tags first (a bonus larger than any raw count), then the raw
count of matched tags. -/
def targetScore (preferred : List String) (t : LlmwsTarget) : ℤ :=
  let pset := preferredTagSet preferred
  (if capMatchCountIn pset t = pset.length then (pset.length : ℤ) + 1 else 0) +
    (capMatchCountIn pset t : ℤ)

/-- Concrete target declaring only the `fast` capability. -/
def targFast : LlmwsTarget := { url := "ws://fast", capabilities := ["fast"] }

/-- Concrete target declaring the `vision` capability. -/
def targVision : LlmwsTarget := { url := "ws://vision", capabilities := ["vision"] }

/-- Concrete result of the vision-capable server. -/
def visionResult : LlmwsRunAttemptResult :=
  { text := "vision-first", sessionId := none, usage := none }

/-- Concrete attempt behavior: only the vision server succeeds. -/
def attemptVision : String → Except String LlmwsRunAttemptResult :=
  fun url =>
    if url = "ws://vision" then Except.ok visionResult
    else Except.error "wrong-target"

/-- Concrete target fixtures for the failover scenarios. -/
def targA : LlmwsTarget := { url := "ws://a", capabilities := [] }

/-- Concrete target that succeeds in the failover scenarios. -/
def targB : LlmwsTarget := { url := "ws://b", capabilities := [] }

/-- Concrete third target, never reached in the failover scenarios. -/
def targC : LlmwsTarget := { url := "ws://c", capabilities := [] }

/-- Concrete attempt behavior: only `ws://b` is reachable. -/
def attemptOfW : String → Except String LlmwsRunAttemptResult :=
  fun url =>
    if url = "ws://b" then
      Except.ok { text := "ok", sessionId := none, usage := none }
    else Except.error "connect timeout"

/-- Concrete `welcome` frame, as sent by the test server of the repository. -/
def welcomeFrame : ParsedMessage :=
  [("type", JVal.jstr "welcome"), ("session_id", JVal.jstr "sid-1")]

/-- Concrete `start` frame. -/
def startFrame (ti mt : ℤ) : ParsedMessage :=
  [("type", JVal.jstr "start"), ("tokens_in", JVal.jnum ti), ("max_tokens", JVal.jnum mt)]

/-- Concrete `token` frame. -/
def tokenFrame (s : String) : ParsedMessage :=
  [("type", JVal.jstr "token"), ("data", JVal.jstr s)]

/-- Concrete `done` frame. -/
def doneFrame (tt : ℤ) : ParsedMessage :=
  [("type", JVal.jstr "done"), ("total_tokens", JVal.jnum tt)]

/-- Concrete frame of an unrecognized type (the `init` record the test server
sends right after the welcome). -/
def junkFrame : ParsedMessage :=
  [("uuid", JVal.jstr "init-1"), ("kind", JVal.jstr "init")]

/-- Concrete `error` frame. -/
def errorFrame (s : String) : ParsedMessage :=
  [("type", JVal.jstr "error"), ("message", JVal.jstr s)]

theorem streamLoop_ok_characterization (rt : ℤ) (gen : LlmwsGenerationConfig)
    (retried : Bool) :
    ∀ (trace : List TimedFrame) (now deadline : ℤ) (itk otk : Option ℤ)
      (text t : String) (i o : Option ℤ),
      streamLoop rt gen retried now deadline itk otk text trace =
        StreamPhaseResult.ok t i o →
      t = text ++ streamTokensText trace ∧ i = streamInputTokens itk trace ∧
        o = streamOutputTokens otk trace
  | [], now, deadline, itk, otk, text, t, i, o => by
    simp only [streamLoop]
    split <;> simp
  | (tm, m) :: rest, now, deadline, itk, otk, text, t, i, o => by
    simp only [streamLoop, streamTokensText, streamInputTokens, streamOutputTokens]
    split
    · simp
    · split
      · simp
      · by_cases hty : readString m "type" = some "start"
        · simp only [hty, if_pos rfl, reduceIte]
          rcases hti : readNumber m "tokens_in" with _ | ti <;>
            rcases hmt : readNumber m "max_tokens" with _ | mt <;>
              simp only [hti, hmt]
          · intro h
            have := streamLoop_ok_characterization rt gen retried rest _ _ _ _ _ _ _ _ h
            simpa [hty, hti] using this
          · intro h
            have := streamLoop_ok_characterization rt gen retried rest _ _ _ _ _ _ _ _ h
            simpa [hty, hti] using this
          · intro h
            have := streamLoop_ok_characterization rt gen retried rest _ _ _ _ _ _ _ _ h
            simpa [hty, hti] using this
          · split
            · split
              · split <;> simp
              · simp
            · intro h
              have := streamLoop_ok_characterization rt gen retried rest _ _ _ _ _ _ _ _ h
              simpa [hty, hti] using this
        · by_cases htok : readString m "type" = some "token"
          · simp only [hty, htok, reduceIte]
            intro h
            have := streamLoop_ok_characterization rt gen retried rest _ _ _ _ _ _ _ _ h
            rcases hdata : lookupField m "data" with _ | v
            · simpa [hty, htok, hdata] using this
            · cases v <;> simpa [hty, htok, hdata, String.append_assoc] using this
          · by_cases hdone : readString m "type" = some "done"
            · simp only [hty, htok, hdone, reduceIte]
              intro h
              rcases htt : readNumber m "total_tokens" with _ | v <;>
                simp_all
            · by_cases herr : readString m "type" = some "error"
              · simp [hty, htok, hdone, herr]
              · simp only [hty, htok, hdone, herr, reduceIte]
                intro h
                have := streamLoop_ok_characterization rt gen retried rest _ _ _ _ _ _ _ _ h
                simpa [hty, htok, hdone, herr] using this

theorem attemptConn_ok_stream (rt : ℤ) (fid : String) (gen : LlmwsGenerationConfig)
    (retried : Bool) (t0 : ℤ) (trace : List TimedFrame) (r : LlmwsRunAttemptResult)
    (h : attemptConn rt fid gen retried (ConnScript.connected t0 trace) = ConnOutcome.ok r) :
    ∃ sid now1 rest,
      welcomeLoop (t0 + rt) t0 trace = WelcomePhaseResult.ok sid now1 rest ∧
        r.text = jsTrim (streamTokensText rest) ∧
        r.usage = mkUsage (streamInputTokens none rest) (streamOutputTokens none rest) := by
  simp only [attemptConn] at h
  cases hw : welcomeLoop (t0 + rt) t0 trace with
  | fail e => rw [hw] at h; simp at h
  | ok sid now1 rest =>
    rw [hw] at h
    dsimp only at h
    cases hs : streamLoop rt gen retried now1 (now1 + rt) none none "" rest with
    | fail e => rw [hs] at h; simp at h
    | retryBudget g => rw [hs] at h; simp at h
    | ok txt i o =>
      rw [hs] at h
      simp only [ConnOutcome.ok.injEq] at h
      obtain ⟨ht, hi, ho⟩ := streamLoop_ok_characterization rt gen retried rest _ _ _ _ _ _ _ _ hs
      refine ⟨sid, now1, rest, rfl, ?_, ?_⟩
      · rw [← h]
        simp only
        rw [ht]
        simp
      · rw [← h]
        simp only
        rw [hi, ho]

/-- C2: for every sequence of frames received by one attempt that completes
successfully, the returned `AttemptResult.text` equals the concatenation of
the streaming-phase token frames' string `data` payloads in arrival order
(embedded whitespace preserved exactly), the only trimming applied being the
overall leading/trailing trim of the final result. -/
theorem attempt_text_is_trimmed_concat (rt : ℤ) (fid : String)
    (gen : LlmwsGenerationConfig) (retried : Bool) (t0 : ℤ) (trace : List TimedFrame)
    (r : LlmwsRunAttemptResult)
    (h : attemptConn rt fid gen retried (ConnScript.connected t0 trace) = ConnOutcome.ok r) :
    ∃ sid now1 rest,
      welcomeLoop (t0 + rt) t0 trace = WelcomePhaseResult.ok sid now1 rest ∧
        r.text = jsTrim (streamTokensText rest) := by
  obtain ⟨sid, now1, rest, hw, ht, _⟩ :=
    attemptConn_ok_stream rt fid gen retried t0 trace r h
  exact ⟨sid, now1, rest, hw, ht⟩

/-- Witness for `attempt_text_is_trimmed_concat` at a concrete attempt whose
token payloads are `"  hello "` and `"world\n"`. -/
theorem attempt_text_is_trimmed_concat_witness :
    ∃ sid now1 rest,
      welcomeLoop ((0 : ℤ) + 5000) 0
          [(1, welcomeFrame), (2, startFrame 10 100), (3, tokenFrame "  hello "),
            (4, tokenFrame "world\n"), (5, doneFrame 2)] =
        WelcomePhaseResult.ok sid now1 rest ∧
        ({ text := "hello world", sessionId := some "sid-1",
            usage := some { input := some 10, output := some 2, total := some 12 } } :
          LlmwsRunAttemptResult).text = jsTrim (streamTokensText rest) :=
  attempt_text_is_trimmed_concat 5000 "fresh" { max_new_tokens := some 32 } false 0
    [(1, welcomeFrame), (2, startFrame 10 100), (3, tokenFrame "  hello "),
      (4, tokenFrame "world\n"), (5, doneFrame 2)]
    { text := "hello world", sessionId := some "sid-1",
      usage := some { input := some 10, output := some 2, total := some 12 } }
    (by rfl)

/-- C10: for every successful attempt, the usage object is present exactly
when the streaming phase saw a numeric `tokens_in` on a `start` frame or a
numeric `total_tokens` on the `done` frame; `usage.input` is the reported
`tokens_in`, `usage.output` the reported `total_tokens`, and `usage.total`
their sum (absent components counting as 0) when that sum is positive,
absent otherwise. -/
theorem usage_reporting_spec (rt : ℤ) (fid : String) (gen : LlmwsGenerationConfig)
    (retried : Bool) (t0 : ℤ) (trace : List TimedFrame) (r : LlmwsRunAttemptResult)
    (h : attemptConn rt fid gen retried (ConnScript.connected t0 trace) = ConnOutcome.ok r) :
    ∃ sid now1 rest,
      welcomeLoop (t0 + rt) t0 trace = WelcomePhaseResult.ok sid now1 rest ∧
        (r.usage.isSome ↔
          (streamInputTokens none rest).isSome ∨ (streamOutputTokens none rest).isSome) ∧
        ∀ u, r.usage = some u →
          u.input = streamInputTokens none rest ∧
            u.output = streamOutputTokens none rest ∧
            u.total =
              (if 0 < (streamInputTokens none rest).getD 0 +
                  (streamOutputTokens none rest).getD 0 then
                some ((streamInputTokens none rest).getD 0 +
                  (streamOutputTokens none rest).getD 0)
              else none) := by
  obtain ⟨sid, now1, rest, hw, _, hu⟩ :=
    attemptConn_ok_stream rt fid gen retried t0 trace r h
  refine ⟨sid, now1, rest, hw, ?_, ?_⟩
  · rw [hu]
    unfold mkUsage
    split
    · rename_i hc
      simp only [Option.isSome_some, true_iff]
      rcases Bool.or_eq_true_iff.mp hc with hcase | hcase
      · exact Or.inl hcase
      · exact Or.inr hcase
    · rename_i hc
      simp only [Option.isSome_none, Bool.false_eq_true, false_iff]
      intro hcontra
      apply hc
      rcases hcontra with hcase | hcase
      · exact Bool.or_eq_true_iff.mpr (Or.inl hcase)
      · exact Bool.or_eq_true_iff.mpr (Or.inr hcase)
  · intro u huu
    rw [hu] at huu
    unfold mkUsage at huu
    split at huu
    · simp only [Option.some.injEq] at huu
      rw [← huu]
      exact ⟨rfl, rfl, rfl⟩
    · simp at huu

/-- Witness for `usage_reporting_spec` at a concrete attempt reporting
`tokens_in = 10` and `total_tokens = 2`. -/
theorem usage_reporting_spec_witness :
    ∃ sid now1 rest,
      welcomeLoop ((0 : ℤ) + 5000) 0
          [(1, welcomeFrame), (2, startFrame 10 100), (3, tokenFrame "ok"), (4, doneFrame 2)] =
        WelcomePhaseResult.ok sid now1 rest ∧
        (({ text := "ok", sessionId := some "sid-1",
            usage := some { input := some 10, output := some 2, total := some 12 } } :
            LlmwsRunAttemptResult).usage.isSome ↔
          (streamInputTokens none rest).isSome ∨ (streamOutputTokens none rest).isSome) ∧
        ∀ u,
          ({ text := "ok", sessionId := some "sid-1",
              usage := some { input := some 10, output := some 2, total := some 12 } } :
            LlmwsRunAttemptResult).usage = some u →
          u.input = streamInputTokens none rest ∧
            u.output = streamOutputTokens none rest ∧
            u.total =
              (if 0 < (streamInputTokens none rest).getD 0 +
                  (streamOutputTokens none rest).getD 0 then
                some ((streamInputTokens none rest).getD 0 +
                  (streamOutputTokens none rest).getD 0)
              else none) :=
  usage_reporting_spec 5000 "fresh" { max_new_tokens := some 32 } false 0
    [(1, welcomeFrame), (2, startFrame 10 100), (3, tokenFrame "ok"), (4, doneFrame 2)]
    { text := "ok", sessionId := some "sid-1",
      usage := some { input := some 10, output := some 2, total := some 12 } }
    (by rfl)

theorem welcomeLoop_rest_mem (wd : ℤ) :
    ∀ (now : ℤ) (trace : List TimedFrame) (sid : Option String) (n1 : ℤ)
      (rest : List TimedFrame),
      welcomeLoop wd now trace = WelcomePhaseResult.ok sid n1 rest →
      ∀ x, x ∈ rest → x ∈ trace
  | now, [], sid, n1, rest => by
    simp only [welcomeLoop]
    split <;> simp
  | now, (t, m) :: tail, sid, n1, rest => by
    simp only [welcomeLoop]
    split
    · simp
    · split
      · simp
      · split
        · intro h x hx
          simp only [WelcomePhaseResult.ok.injEq] at h
          rw [← h.2.2] at hx
          exact List.mem_cons_of_mem _ hx
        · intro h x hx
          exact List.mem_cons_of_mem _
            (welcomeLoop_rest_mem wd (max now t) tail sid n1 rest h x hx)

theorem streamLoop_retry_characterization (rt : ℤ) (gen : LlmwsGenerationConfig)
    (retried : Bool) :
    ∀ (trace : List TimedFrame) (now deadline : ℤ) (itk otk : Option ℤ)
      (text : String) (g : LlmwsGenerationConfig),
      streamLoop rt gen retried now deadline itk otk text trace =
        StreamPhaseResult.retryBudget g →
      retried = false ∧
        ∃ tm m ti mt d, (tm, m) ∈ trace ∧ readString m "type" = some "start" ∧
          readNumber m "tokens_in" = some ti ∧ readNumber m "max_tokens" = some mt ∧
          0 < ti ∧ mt ≤ ti ∧ gen.max_new_tokens = some d ∧ 0 < d ∧
          g = { gen with max_new_tokens := some (ti * 2 + d) }
  | [], now, deadline, itk, otk, text, g => by
    simp only [streamLoop]
    split <;> simp
  | (tm, m) :: rest, now, deadline, itk, otk, text, g => by
    simp only [streamLoop]
    split
    · simp
    · split
      · simp
      · by_cases hty : readString m "type" = some "start"
        · simp only [hty, reduceIte]
          rcases hti : readNumber m "tokens_in" with _ | ti <;>
            rcases hmt : readNumber m "max_tokens" with _ | mt <;>
              simp only [hti, hmt]
          · intro h
            obtain ⟨hr, tm2, m2, ti2, mt2, d2, hmem, hrest⟩ :=
              streamLoop_retry_characterization rt gen retried rest _ _ _ _ _ _ h
            exact ⟨hr, tm2, m2, ti2, mt2, d2, List.mem_cons_of_mem _ hmem, hrest⟩
          · intro h
            obtain ⟨hr, tm2, m2, ti2, mt2, d2, hmem, hrest⟩ :=
              streamLoop_retry_characterization rt gen retried rest _ _ _ _ _ _ h
            exact ⟨hr, tm2, m2, ti2, mt2, d2, List.mem_cons_of_mem _ hmem, hrest⟩
          · intro h
            obtain ⟨hr, tm2, m2, ti2, mt2, d2, hmem, hrest⟩ :=
              streamLoop_retry_characterization rt gen retried rest _ _ _ _ _ _ h
            exact ⟨hr, tm2, m2, ti2, mt2, d2, List.mem_cons_of_mem _ hmem, hrest⟩
          · by_cases hcond : ¬retried = true ∧ 0 < ti ∧ mt ≤ ti
            · rw [if_pos hcond]
              split
              · rename_i d hd
                split
                · rename_i hdpos
                  intro h
                  simp only [StreamPhaseResult.retryBudget.injEq] at h
                  refine ⟨Bool.not_eq_true retried ▸ hcond.1, tm, m, ti, mt, d,
                    List.mem_cons_self _ _, hty, hti, hmt, hcond.2.1, hcond.2.2, hd,
                    hdpos, h.symm⟩
                · simp
              · simp
            · rw [if_neg hcond]
              intro h
              obtain ⟨hr, tm2, m2, ti2, mt2, d2, hmem, hrest⟩ :=
                streamLoop_retry_characterization rt gen retried rest _ _ _ _ _ _ h
              exact ⟨hr, tm2, m2, ti2, mt2, d2, List.mem_cons_of_mem _ hmem, hrest⟩
        · by_cases htok : readString m "type" = some "token"
          · simp only [hty, htok, reduceIte]
            intro h
            obtain ⟨hr, tm2, m2, ti2, mt2, d2, hmem, hrest⟩ :=
              streamLoop_retry_characterization rt gen retried rest _ _ _ _ _ _ h
            exact ⟨hr, tm2, m2, ti2, mt2, d2, List.mem_cons_of_mem _ hmem, hrest⟩
          · by_cases hdone : readString m "type" = some "done"
            · simp [hty, htok, hdone]
            · by_cases herr : readString m "type" = some "error"
              · simp [hty, htok, hdone, herr]
              · simp only [hty, htok, hdone, herr, reduceIte]
                intro h
                obtain ⟨hr, tm2, m2, ti2, mt2, d2, hmem, hrest⟩ :=
                  streamLoop_retry_characterization rt gen retried rest _ _ _ _ _ _ h
                exact ⟨hr, tm2, m2, ti2, mt2, d2, List.mem_cons_of_mem _ hmem, hrest⟩

theorem attemptConn_retry_characterization (rt : ℤ) (fid : String)
    (gen : LlmwsGenerationConfig) (retried : Bool) (s : ConnScript)
    (g : LlmwsGenerationConfig) (h : attemptConn rt fid gen retried s = ConnOutcome.retry g) :
    retried = false ∧
      ∃ t0 trace tm m ti mt d, s = ConnScript.connected t0 trace ∧ (tm, m) ∈ trace ∧
        readString m "type" = some "start" ∧ readNumber m "tokens_in" = some ti ∧
        readNumber m "max_tokens" = some mt ∧ 0 < ti ∧ mt ≤ ti ∧
        gen.max_new_tokens = some d ∧ 0 < d ∧
        g = { gen with max_new_tokens := some (ti * 2 + d) } := by
  cases s with
  | connectFail msg => simp [attemptConn] at h
  | connected t0 trace =>
    simp only [attemptConn] at h
    cases hw : welcomeLoop (t0 + rt) t0 trace with
    | fail e => rw [hw] at h; simp at h
    | ok sid now1 rest =>
      rw [hw] at h
      dsimp only at h
      cases hs : streamLoop rt gen retried now1 (now1 + rt) none none "" rest with
      | fail e => rw [hs] at h; simp at h
      | ok txt i o => rw [hs] at h; simp at h
      | retryBudget g2 =>
        rw [hs] at h
        simp only [ConnOutcome.retry.injEq] at h
        rw [h] at hs
        obtain ⟨hr, tm, m, ti, mt, d, hmem, hrest⟩ :=
          streamLoop_retry_characterization rt gen retried rest _ _ _ _ _ _ hs
        exact ⟨hr, t0, trace, tm, m, ti, mt, d, rfl,
          welcomeLoop_rest_mem (t0 + rt) t0 trace sid now1 rest hw _ hmem, hrest⟩

/-- C1 (amended): when a connection's streaming phase reports a `start` frame
with numeric `tokens_in` and `max_tokens` where `tokens_in` is positive and
`max_tokens ≤ tokens_in`, this being the first such occurrence for the call
and a positive `maxNewTokens` being configured, the attempt closes the
connection and restarts exactly once against the same target with
`max_new_tokens` recomputed as `2 * tokens_in` plus the originally configured
budget; the restarted connection can never trigger another retry. -/
theorem tokenBudgetRetry_once_with_corrected_budget (rt : ℤ) (fid1 fid2 : String)
    (gen0 g : LlmwsGenerationConfig) (t0 : ℤ) (trace : List TimedFrame) (s2 : ConnScript)
    (hretry : attemptConn rt fid1 gen0 false (ConnScript.connected t0 trace) =
      ConnOutcome.retry g) :
    (∃ tm m ti mt d, (tm, m) ∈ trace ∧ readString m "type" = some "start" ∧
        readNumber m "tokens_in" = some ti ∧ readNumber m "max_tokens" = some mt ∧
        0 < ti ∧ mt ≤ ti ∧ gen0.max_new_tokens = some d ∧ 0 < d ∧
        g = { gen0 with max_new_tokens := some (ti * 2 + d) }) ∧
      runLlmwsAttempt rt fid1 fid2 gen0 (ConnScript.connected t0 trace) s2 =
        (match attemptConn rt fid2 g true s2 with
          | ConnOutcome.ok r => Except.ok r
          | ConnOutcome.err e => Except.error e
          | ConnOutcome.retry _ =>
            Except.error "LLMWS retry failed: server did not accept adjusted token budget") ∧
      (attemptConn rt fid2 g true s2).isRetry = false := by
  obtain ⟨-, t0', trace', tm, m, ti, mt, d, heq, hmem, hrest⟩ :=
    attemptConn_retry_characterization rt fid1 gen0 false _ g hretry
  refine ⟨?_, ?_, ?_⟩
  · injection heq with heq1 heq2
    subst heq1
    subst heq2
    exact ⟨tm, m, ti, mt, d, hmem, hrest⟩
  · simp only [runLlmwsAttempt, hretry]
  · cases hc : attemptConn rt fid2 g true s2 with
    | ok r => rfl
    | err e => rfl
    | retry g2 =>
      obtain ⟨hfalse, -⟩ := attemptConn_retry_characterization rt fid2 g true _ g2 hc
      simp at hfalse

/-- Counterexample to C1 as stated: a first `start` frame with numeric
`tokens_in = 0` and `max_tokens = 0` satisfies `max_tokens ≤ tokens_in`, yet
the attempt does not restart — the source additionally requires
`tokens_in > 0` — and instead completes on the first connection. -/
theorem tokenBudgetRetry_zero_tokens_in_counterexample :
    attemptConn 5000 "fresh" { max_new_tokens := some 32 } false
        (ConnScript.connected 0
          [(1, welcomeFrame), (2, startFrame 0 0), (3, tokenFrame "A"), (4, doneFrame 1)]) =
      ConnOutcome.ok
        { text := "A", sessionId := some "sid-1",
          usage := some { input := some 0, output := some 1, total := some 1 } } ∧
    (attemptConn 5000 "fresh" { max_new_tokens := some 32 } false
        (ConnScript.connected 0
          [(1, welcomeFrame), (2, startFrame 0 0), (3, tokenFrame "A"),
            (4, doneFrame 1)])).isRetry = false :=
  ⟨rfl, rfl⟩

/-- Witness for `tokenBudgetRetry_once_with_corrected_budget` at the spec's
concrete numbers: `tokens_in = 100`, `max_tokens = 10`, configured
`maxNewTokens = 32`, recomputed budget `232`. -/
theorem tokenBudgetRetry_once_witness :
    (∃ tm m ti mt d,
        (tm, m) ∈ [((1 : ℤ), welcomeFrame), (2, startFrame 100 10)] ∧
        readString m "type" = some "start" ∧
        readNumber m "tokens_in" = some ti ∧ readNumber m "max_tokens" = some mt ∧
        0 < ti ∧ mt ≤ ti ∧
        ({ max_new_tokens := some 32 } : LlmwsGenerationConfig).max_new_tokens = some d ∧
        0 < d ∧
        ({ max_new_tokens := some 232 } : LlmwsGenerationConfig) =
          { ({ max_new_tokens := some 32 } : LlmwsGenerationConfig) with
              max_new_tokens := some (ti * 2 + d) }) ∧
      runLlmwsAttempt 5000 "f1" "f2" { max_new_tokens := some 32 }
          (ConnScript.connected 0 [(1, welcomeFrame), (2, startFrame 100 10)])
          (ConnScript.connected 10
            [(11, welcomeFrame), (12, startFrame 100 200), (13, tokenFrame "ok"),
              (14, doneFrame 1)]) =
        (match attemptConn 5000 "f2" { max_new_tokens := some 232 } true
            (ConnScript.connected 10
              [(11, welcomeFrame), (12, startFrame 100 200), (13, tokenFrame "ok"),
                (14, doneFrame 1)]) with
          | ConnOutcome.ok r => Except.ok r
          | ConnOutcome.err e => Except.error e
          | ConnOutcome.retry _ =>
            Except.error "LLMWS retry failed: server did not accept adjusted token budget") ∧
      (attemptConn 5000 "f2" { max_new_tokens := some 232 } true
          (ConnScript.connected 10
            [(11, welcomeFrame), (12, startFrame 100 200), (13, tokenFrame "ok"),
              (14, doneFrame 1)])).isRetry = false :=
  tokenBudgetRetry_once_with_corrected_budget 5000 "f1" "f2"
    { max_new_tokens := some 32 } { max_new_tokens := some 232 } 0
    [(1, welcomeFrame), (2, startFrame 100 10)]
    (ConnScript.connected 10
      [(11, welcomeFrame), (12, startFrame 100 200), (13, tokenFrame "ok"),
        (14, doneFrame 1)])
    (by rfl)

/-- C3 (amended): within one attempt the read timeout is an idle timeout in
the streaming phase — after every received message the remaining allowance
resets to the full `readTimeoutMs`, counted from the receipt time — while the
welcome-wait phase runs under one fixed absolute deadline (`readTimeoutMs`
after the hello was sent), which received non-welcome messages do not
extend. -/
theorem read_deadline_reset_semantics (rt : ℤ) (gen : LlmwsGenerationConfig)
    (retried : Bool) (now deadline wd : ℤ) (itk otk : Option ℤ) (text : String)
    (t : ℤ) (m : ParsedMessage) (rest : List TimedFrame)
    (hlive : ¬ deadline - now ≤ 0) (harr : ¬ deadline < t) :
    (∀ s, readString m "type" = some "token" →
      lookupField m "data" = some (JVal.jstr s) →
      streamLoop rt gen retried now deadline itk otk text ((t, m) :: rest) =
        streamLoop rt gen retried (max now t) (max now t + rt) itk otk (text ++ s) rest) ∧
    (readString m "type" ≠ some "start" → readString m "type" ≠ some "token" →
      readString m "type" ≠ some "done" → readString m "type" ≠ some "error" →
      streamLoop rt gen retried now deadline itk otk text ((t, m) :: rest) =
        streamLoop rt gen retried (max now t) (max now t + rt) itk otk text rest) ∧
    (¬ wd - now ≤ 0 → ¬ wd < t → readString m "type" ≠ some "welcome" →
      welcomeLoop wd now ((t, m) :: rest) = welcomeLoop wd (max now t) rest) := by
  refine ⟨?_, ?_, ?_⟩
  · intro s htok hdata
    simp only [streamLoop, if_neg hlive, if_neg harr, htok, hdata]
    rw [if_neg (by decide : ¬ ((some "token" : Option String) = some "start"))]
    simp
  · intro hs htok hdone herr
    simp only [streamLoop, if_neg hlive, if_neg harr]
    rw [if_neg hs, if_neg htok, if_neg hdone, if_neg herr]
  · intro hwlive hwarr hwel
    simp only [welcomeLoop, if_neg hwlive, if_neg hwarr]
    rw [if_neg hwel]

/-- Counterexample to C3 as stated: with `readTimeoutMs = 100`, messages
arriving at 60, 120 and 180 are never more than 100 ms apart, so under an
idle deadline all would be accepted — and indeed the streaming phase accepts
the same arrival pattern — yet the welcome-wait phase, whose deadline is the
fixed instant 100, times out before the welcome frame arrives at 180. -/
theorem welcome_wait_not_idle_counterexample :
    welcomeLoop 100 0 [(60, junkFrame), (120, junkFrame), (180, welcomeFrame)] =
      WelcomePhaseResult.fail "LLMWS read timeout (40ms)" ∧
    streamLoop 100 { max_new_tokens := some 32 } false 0 100 none none ""
        [(60, junkFrame), (120, junkFrame), (180, tokenFrame "a"), (181, doneFrame 1)] =
      StreamPhaseResult.ok "a" none (some 1) :=
  ⟨rfl, rfl⟩

/-- Witness for `read_deadline_reset_semantics` at a concrete token frame
received at time 120 with allowance 100. -/
theorem read_deadline_reset_semantics_witness :
    (∀ s, readString (tokenFrame "a") "type" = some "token" →
      lookupField (tokenFrame "a") "data" = some (JVal.jstr s) →
      streamLoop 100 { max_new_tokens := some 32 } false 60 160 none none "x"
          ((120, tokenFrame "a") :: [(181, doneFrame 1)]) =
        streamLoop 100 { max_new_tokens := some 32 } false (max 60 120) (max 60 120 + 100)
          none none ("x" ++ s) [(181, doneFrame 1)]) ∧
    (readString (tokenFrame "a") "type" ≠ some "start" →
      readString (tokenFrame "a") "type" ≠ some "token" →
      readString (tokenFrame "a") "type" ≠ some "done" →
      readString (tokenFrame "a") "type" ≠ some "error" →
      streamLoop 100 { max_new_tokens := some 32 } false 60 160 none none "x"
          ((120, tokenFrame "a") :: [(181, doneFrame 1)]) =
        streamLoop 100 { max_new_tokens := some 32 } false (max 60 120) (max 60 120 + 100)
          none none "x" [(181, doneFrame 1)]) ∧
    (¬ (160 : ℤ) - 60 ≤ 0 → ¬ (160 : ℤ) < 120 →
      readString (tokenFrame "a") "type" ≠ some "welcome" →
      welcomeLoop 160 60 ((120, tokenFrame "a") :: [(181, doneFrame 1)]) =
        welcomeLoop 160 (max 60 120) [(181, doneFrame 1)]) :=
  read_deadline_reset_semantics 100 { max_new_tokens := some 32 } false 60 160 160
    none none "x" 120 (tokenFrame "a") [(181, doneFrame 1)] (by decide) (by decide)

theorem queueStep_terminal_sticky (s : QueueState) (e0 : String)
    (hterm : s.terminalError = some e0) (ev : QueueEvent) :
    (queueStep s ev).terminalError = some e0 := by
  cases ev with
  | push m =>
    simp only [queueStep, queuePush]
    cases s.waiters <;> simpa using hterm
  | failE e =>
    simp only [queueStep, queueFail, hterm]
  | nextE w =>
    simp only [queueStep, queueNext]
    cases hq : s.queue with
    | cons m rest => simpa using hterm
    | nil =>
      rw [hterm]
      exact hterm
  | timer w =>
    simpa [queueStep, queueTimerFire] using hterm

theorem queueRun_terminal_sticky (evs : List QueueEvent) :
    ∀ (s : QueueState) (e0 : String), s.terminalError = some e0 →
      (queueRun s evs).terminalError = some e0 := by
  induction evs with
  | nil => intro s e0 h; exact h
  | cons ev rest ih =>
    intro s e0 h
    exact ih (queueStep s ev) e0 (queueStep_terminal_sticky s e0 h ev)

/-- C4 (amended): on a connection error or close, every `next()` pending at
that moment is rejected immediately with the first recorded terminal error;
the recorded error never changes under any later queue event; and every later
`next()` call fails immediately with that first error once the internal
buffer is empty — messages buffered before the failure are still delivered
first. -/
theorem queue_sticky_first_error (s : QueueState) (e e0 : String) (wid : ℕ)
    (evs : List QueueEvent) :
    (queueFail s e).2 = s.waiters.map (fun w => (w, s.terminalError.getD e)) ∧
    (queueFail s e).1.waiters = [] ∧
    (queueFail s e).1.terminalError = some (s.terminalError.getD e) ∧
    (s.terminalError = some e0 →
      (queueRun s evs).terminalError = some e0 ∧
      ((queueRun s evs).queue = [] →
        queueNext (queueRun s evs) wid = (queueRun s evs, NextOutcome.failed e0))) := by
  refine ⟨?_, ?_, ?_, ?_⟩
  · simp only [queueFail]
    cases s.terminalError <;> rfl
  · rfl
  · simp only [queueFail]
    cases s.terminalError <;> rfl
  · intro hterm
    have hrun := queueRun_terminal_sticky evs s e0 hterm
    refine ⟨hrun, ?_⟩
    intro hqueue
    simp only [queueNext, hqueue, hrun]

/-- Counterexample to C4 as stated: with one message still buffered when the
connection fails, the next `next()` call is not rejected — it delivers the
buffered message; the recorded terminal error only applies once the buffer
is drained. -/
theorem queue_buffered_after_fail_counterexample :
    queueFail { queue := [junkFrame], waiters := [], terminalError := none } "boom" =
      ({ queue := [junkFrame], waiters := [], terminalError := some "boom" }, []) ∧
    queueNext { queue := [junkFrame], waiters := [], terminalError := some "boom" } 0 =
      ({ queue := [], waiters := [], terminalError := some "boom" },
        NextOutcome.delivered junkFrame) :=
  ⟨rfl, rfl⟩

/-- Witness for `queue_sticky_first_error` on a concrete queue that already
recorded the error `"first"` and has two pending waiters. -/
theorem queue_sticky_first_error_witness :
    (queueFail { queue := [], waiters := [3, 4], terminalError := some "first" } "second").2 =
      [3, 4].map (fun w =>
        (w, (some "first" : Option String).getD "second")) ∧
    (queueFail { queue := [], waiters := [3, 4], terminalError := some "first" }
        "second").1.waiters = [] ∧
    (queueFail { queue := [], waiters := [3, 4], terminalError := some "first" }
        "second").1.terminalError =
      some ((some "first" : Option String).getD "second") ∧
    (QueueState.terminalError
        { queue := [], waiters := [3, 4], terminalError := some "first" } = some "first" →
      (queueRun { queue := [], waiters := [3, 4], terminalError := some "first" }
          [QueueEvent.failE "third", QueueEvent.nextE 5]).terminalError = some "first" ∧
      ((queueRun { queue := [], waiters := [3, 4], terminalError := some "first" }
          [QueueEvent.failE "third", QueueEvent.nextE 5]).queue = [] →
        queueNext (queueRun { queue := [], waiters := [3, 4], terminalError := some "first" }
            [QueueEvent.failE "third", QueueEvent.nextE 5]) 9 =
          (queueRun { queue := [], waiters := [3, 4], terminalError := some "first" }
            [QueueEvent.failE "third", QueueEvent.nextE 5],
            NextOutcome.failed "first"))) :=
  queue_sticky_first_error { queue := [], waiters := [3, 4], terminalError := some "first" }
    "second" "first" 9 [QueueEvent.failE "third", QueueEvent.nextE 5]

/-- C6 (amended): when the scoped exclusive lock on the transcript file cannot
be acquired within its timeout, `appendTranscriptMessages` fails with the lock
error rather than deadlocking, but `runLlmwsAgent` swallows transcript
persistence failures (only recording a warning): the call still succeeds with
the generated text and no classified failure is surfaced. -/
theorem lock_failure_append_fails_but_call_succeeds (existing : List FileLine)
    (sessionId cwd userId assistantId now now2 userText finalText : String)
    (hne : finalText ≠ "") :
    (∃ e, appendTranscriptMessages false existing sessionId cwd userId assistantId now now2
        userText finalText = Except.error e) ∧
    (finishLlmwsRun finalText
        (appendTranscriptMessages false existing sessionId cwd userId assistantId now now2
          userText finalText)).payloads = some [finalText] := by
  refine ⟨⟨"session write lock timeout", rfl⟩, ?_⟩
  simp [finishLlmwsRun, appendTranscriptMessages, acquireSessionWriteLock, hne]

/-- Counterexample to C6 as stated: with the lock unavailable, the append
itself fails with the lock error, but the surrounding call does not fail —
it returns its payload and only records a warning, so no `unknown`-classified
failure reaches the caller. -/
theorem lock_failure_swallowed_counterexample :
    appendTranscriptMessages false [] "sess" "/ws" "u-id" "a-id" "T1" "T2" "hi" "yo" =
      Except.error "session write lock timeout" ∧
    finishLlmwsRun "yo"
        (appendTranscriptMessages false [] "sess" "/ws" "u-id" "a-id" "T1" "T2" "hi" "yo") =
      { payloads := some ["yo"],
        persistenceWarning :=
          some "failed to persist llmws transcript: session write lock timeout" } :=
  ⟨rfl, rfl⟩

/-- Witness for `lock_failure_append_fails_but_call_succeeds` at a concrete
turn. -/
theorem lock_failure_append_fails_witness :
    (∃ e, appendTranscriptMessages false [headerLine] "sess" "/ws" "u-id" "a-id" "T1" "T2"
        "hi" "yo" = Except.error e) ∧
    (finishLlmwsRun "yo"
        (appendTranscriptMessages false [headerLine] "sess" "/ws" "u-id" "a-id" "T1" "T2"
          "hi" "yo")).payloads = some ["yo"] :=
  lock_failure_append_fails_but_call_succeeds [headerLine] "sess" "/ws" "u-id" "a-id"
    "T1" "T2" "hi" "yo" (by decide)

/-- C8: when at least one optional section is produced, the outgoing user
prompt is the history block (if present), then the memory block (if present),
then the `Current user request:` marker followed by the raw prompt, joined by
blank lines; when neither optional section is present the raw prompt is sent
unmodified, with no markers added. -/
theorem prompt_assembly_spec (historyContext memoryInjection : Option String)
    (prompt : String) :
    (∀ h m, historyContext = some h → h ≠ "" → memoryInjection = some m → m ≠ "" →
      buildPromptBody historyContext memoryInjection prompt =
        h ++ "\n\n" ++ m ++ "\n\n" ++ currentRequestMarker prompt) ∧
    (∀ h, historyContext = some h → h ≠ "" → sectionAbsent memoryInjection →
      buildPromptBody historyContext memoryInjection prompt =
        h ++ "\n\n" ++ currentRequestMarker prompt) ∧
    (∀ m, sectionAbsent historyContext → memoryInjection = some m → m ≠ "" →
      buildPromptBody historyContext memoryInjection prompt =
        m ++ "\n\n" ++ currentRequestMarker prompt) ∧
    (sectionAbsent historyContext → sectionAbsent memoryInjection →
      buildPromptBody historyContext memoryInjection prompt = prompt) := by
  refine ⟨?_, ?_, ?_, ?_⟩
  · intro h m hh hne hm mne
    subst hh
    subst hm
    simp [buildPromptBody, joinSep, hne, mne, String.append_assoc]
  · intro h hh hne habs
    subst hh
    cases memoryInjection with
    | none => simp [buildPromptBody, joinSep, hne]
    | some m =>
      have hm : m = "" := habs
      subst hm
      simp [buildPromptBody, joinSep, hne]
  · intro m habs hm mne
    subst hm
    cases historyContext with
    | none => simp [buildPromptBody, joinSep, mne]
    | some h =>
      have hh : h = "" := habs
      subst hh
      simp [buildPromptBody, joinSep, mne]
  · intro h1 h2
    cases historyContext with
    | none =>
      cases memoryInjection with
      | none => simp [buildPromptBody]
      | some m =>
        have hm : m = "" := h2
        subst hm
        simp [buildPromptBody]
    | some h =>
      have hh : h = "" := h1
      subst hh
      cases memoryInjection with
      | none => simp [buildPromptBody]
      | some m =>
        have hm : m = "" := h2
        subst hm
        simp [buildPromptBody]

/-- Witness for `prompt_assembly_spec` with both sections present. -/
theorem prompt_assembly_spec_witness :
    buildPromptBody (some "Conversation history:\nUser: hi")
        (some "Relevant memories:\nremember") "what now" =
      "Conversation history:\nUser: hi" ++ "\n\n" ++ "Relevant memories:\nremember" ++
        "\n\n" ++ currentRequestMarker "what now" :=
  (prompt_assembly_spec (some "Conversation history:\nUser: hi")
      (some "Relevant memories:\nremember") "what now").1
    "Conversation history:\nUser: hi" "Relevant memories:\nremember" rfl (by decide)
    rfl (by decide)

theorem scanTranscriptStep_snd (acc : Bool × Option String) (l : FileLine) :
    (scanTranscriptStep acc l).2 =
      match messageLineId l with
      | some v => some v
      | none => acc.2 := by
  cases l with
  | junk => rfl
  | record m =>
    simp only [scanTranscriptStep, messageLineId]
    split
    · cases readString m "id" <;> rfl
    · rfl

theorem scanTranscript_foldl_snd (lines : List FileLine) :
    ∀ acc : Bool × Option String,
      (lines.foldl scanTranscriptStep acc).2 =
        match lastMessageIdSpec lines with
        | some v => some v
        | none => acc.2 := by
  induction lines with
  | nil => intro acc; rfl
  | cons l rest ih =>
    intro acc
    rw [List.foldl_cons, ih]
    have hspec : lastMessageIdSpec (l :: rest) =
        match lastMessageIdSpec rest with
        | some v => some v
        | none => messageLineId l := by
      simp only [lastMessageIdSpec, List.reverse_cons, List.findSome?_append]
      cases hr : List.findSome? messageLineId rest.reverse with
      | none =>
        rw [List.findSome?_cons]
        cases messageLineId l <;> rfl
      | some v => rfl
    rw [hspec]
    cases lastMessageIdSpec rest with
    | some v => rfl
    | none =>
      rw [scanTranscriptStep_snd]

theorem scanTranscript_foldl_fst (lines : List FileLine) :
    ∀ acc : Bool × Option String,
      ((lines.foldl scanTranscriptStep acc).1 = true ↔
        acc.1 = true ∨ ∃ m, FileLine.record m ∈ lines ∧
          lookupField m "type" = some (JVal.jstr "session")) := by
  induction lines with
  | nil => intro acc; simp
  | cons l rest ih =>
    intro acc
    rw [List.foldl_cons, ih]
    cases l with
    | junk =>
      simp only [scanTranscriptStep, List.mem_cons]
      constructor
      · rintro (h | ⟨m, hm, hp⟩)
        · exact Or.inl h
        · exact Or.inr ⟨m, Or.inr hm, hp⟩
      · rintro (h | ⟨m, hm | hm, hp⟩)
        · exact Or.inl h
        · exact absurd hm (by simp)
        · exact Or.inr ⟨m, hm, hp⟩
    | record m0 =>
      simp only [scanTranscriptStep, List.mem_cons, Bool.or_eq_true, decide_eq_true_eq]
      constructor
      · rintro ((h | h) | ⟨m, hm, hp⟩)
        · exact Or.inl h
        · exact Or.inr ⟨m0, Or.inl rfl, h⟩
        · exact Or.inr ⟨m, Or.inr hm, hp⟩
      · rintro (h | ⟨m, hm | hm, hp⟩)
        · exact Or.inl (Or.inl h)
        · injection hm with hm2
          subst hm2
          exact Or.inl (Or.inr hp)
        · exact Or.inr ⟨m, hm, hp⟩

/-- C9: given a transcript whose existing lines already contain a `session`
header, one successful turn appends exactly two `message` lines — a user
entry whose parentId is the most recent prior message id (or none when no
prior message exists) and an assistant entry whose parentId is the user
entry's id — and never writes a second header line. -/
theorem transcript_append_two_messages (existing : List FileLine)
    (sessionId cwd userId assistantId now now2 userText assistantText : String)
    (m0 : ParsedMessage) (hmem : FileLine.record m0 ∈ existing)
    (hheader : lookupField m0 "type" = some (JVal.jstr "session")) :
    appendTranscriptMessages true existing sessionId cwd userId assistantId now now2
        userText assistantText =
      Except.ok
        [TranscriptNewLine.message
            { id := userId, parentId := lastMessageIdSpec existing, timestamp := now,
              role := "user", text := userText },
          TranscriptNewLine.message
            { id := assistantId, parentId := some userId, timestamp := now2,
              role := "assistant", text := assistantText }] := by
  have hfst : (scanTranscriptLines existing).1 = true :=
    (scanTranscript_foldl_fst existing (false, none)).mpr (Or.inr ⟨m0, hmem, hheader⟩)
  have hsnd : (scanTranscriptLines existing).2 = lastMessageIdSpec existing := by
    rw [scanTranscriptLines, scanTranscript_foldl_snd existing (false, none)]
    cases lastMessageIdSpec existing <;> rfl
  simp only [appendTranscriptMessages, acquireSessionWriteLock, reduceIte, Except.ok.injEq]
  rw [transcriptAdditions, hfst, hsnd]
  simp

/-- Witness for `transcript_append_two_messages` on a transcript with an
existing header and two prior messages `m1`, `m2`: the new user entry chains
to `m2`. -/
theorem transcript_append_two_messages_witness :
    appendTranscriptMessages true [headerLine, messageLine "m1", messageLine "m2"]
        "sess-2" "/ws" "u-id" "a-id" "T1" "T2" "new user" "new assistant" =
      Except.ok
        [TranscriptNewLine.message
            { id := "u-id",
              parentId := lastMessageIdSpec [headerLine, messageLine "m1", messageLine "m2"],
              timestamp := "T1", role := "user", text := "new user" },
          TranscriptNewLine.message
            { id := "a-id", parentId := some "u-id", timestamp := "T2",
              role := "assistant", text := "new assistant" }] ∧
    lastMessageIdSpec [headerLine, messageLine "m1", messageLine "m2"] = some "m2" :=
  ⟨transcript_append_two_messages [headerLine, messageLine "m1", messageLine "m2"]
      "sess-2" "/ws" "u-id" "a-id" "T1" "T2" "new user" "new assistant"
      [("type", JVal.jstr "session"), ("id", JVal.jstr "sess-2")]
      (by decide) (by decide),
    by decide⟩

theorem dropWhile_head_false (p : Char → Bool) (l : List Char) (c : Char) (t : List Char)
    (h : l.dropWhile p = c :: t) : p c = false := by
  have hh := List.head?_dropWhile_not p l
  rw [h] at hh
  simpa using hh

theorem dropWhile_through (p : Char → Bool) (u x v : List Char) (c : Char) (t : List Char)
    (hx : x = c :: t) (hc : p c = false) :
    ∃ u1, (u ++ (x ++ v)).dropWhile p = u1 ++ (x ++ v) := by
  have hxdrop : x.dropWhile p = x := by
    subst hx
    simp [List.dropWhile_cons, hc]
  rw [List.dropWhile_append]
  split
  · refine ⟨[], ?_⟩
    rw [List.dropWhile_append, hxdrop]
    rw [if_neg ?_]
    · simp
    · subst hx
      simp
  · exact ⟨u.dropWhile p, rfl⟩

theorem getLast?_append_ne_nil (a b : List Char) (hb : b ≠ []) :
    (a ++ b).getLast? = b.getLast? := by
  rw [List.getLast?_append]
  cases hbl : b.getLast? with
  | some x => rfl
  | none => exact absurd (List.getLast?_eq_none_iff.mp hbl) hb

theorem trimChars_decomposition (l : List Char) :
    ∃ a b, l = a ++ trimChars l ++ b := by
  refine ⟨l.takeWhile wsChar, ((l.dropWhile wsChar).reverse.takeWhile wsChar).reverse, ?_⟩
  have hD : l.dropWhile wsChar =
      trimChars l ++ ((l.dropWhile wsChar).reverse.takeWhile wsChar).reverse := by
    conv_lhs => rw [← List.reverse_reverse (l.dropWhile wsChar)]
    conv_lhs =>
      rw [← List.takeWhile_append_dropWhile wsChar (l.dropWhile wsChar).reverse]
    rw [List.reverse_append]
    rfl
  conv_lhs => rw [← List.takeWhile_append_dropWhile wsChar l, hD]
  rw [List.append_assoc]

theorem trimChars_head_not_ws (l : List Char) (c : Char) (t : List Char)
    (h : trimChars l = c :: t) : wsChar c = false := by
  have hne : (l.dropWhile wsChar).reverse.dropWhile wsChar ≠ [] := by
    intro hnil
    rw [trimChars, hnil] at h
    exact List.noConfusion h
  have hhead : (trimChars l).head? =
      ((l.dropWhile wsChar).reverse.dropWhile wsChar).getLast? := by
    rw [trimChars, List.head?_reverse]
  have hgl : ((l.dropWhile wsChar).reverse.dropWhile wsChar).getLast? =
      (l.dropWhile wsChar).reverse.getLast? := by
    conv_rhs =>
      rw [← List.takeWhile_append_dropWhile wsChar (l.dropWhile wsChar).reverse]
    rw [getLast?_append_ne_nil _ _ hne]
  rw [hgl, List.getLast?_reverse] at hhead
  rw [h] at hhead
  cases hd : l.dropWhile wsChar with
  | nil => rw [hd] at hhead; simp at hhead
  | cons c2 t2 =>
    rw [hd] at hhead
    simp only [List.head?_cons, Option.some.injEq] at hhead
    rw [hhead]
    exact dropWhile_head_false wsChar l c2 t2 hd

theorem trimChars_getLast_not_ws (l : List Char) (c : Char)
    (h : (trimChars l).getLast? = some c) : wsChar c = false := by
  rw [trimChars, List.getLast?_reverse] at h
  cases hd : (l.dropWhile wsChar).reverse.dropWhile wsChar with
  | nil => rw [hd] at h; exact Option.noConfusion h
  | cons c2 t2 =>
    rw [hd] at h
    simp only [List.head?_cons, Option.some.injEq] at h
    rw [← h]
    exact dropWhile_head_false wsChar (l.dropWhile wsChar).reverse c2 t2 hd

theorem containsSeq_trimChars (big x : List Char) (hne : x ≠ [])
    (hhead : ∀ c t, x = c :: t → wsChar c = false)
    (hlast : ∀ c, x.getLast? = some c → wsChar c = false)
    (hsub : ∃ u v, big = u ++ x ++ v) :
    ∃ u v, trimChars big = u ++ x ++ v := by
  obtain ⟨u, v, rfl⟩ := hsub
  obtain ⟨c, t, hx⟩ : ∃ c t, x = c :: t := by
    cases x with
    | nil => exact absurd rfl hne
    | cons c t => exact ⟨c, t, rfl⟩
  have hc : wsChar c = false := hhead c t hx
  obtain ⟨u1, hA⟩ := dropWhile_through wsChar u x v c t hx hc
  obtain ⟨c2, t2, hxr⟩ : ∃ c2 t2, x.reverse = c2 :: t2 := by
    cases hxr : x.reverse with
    | nil => exact absurd (by simpa using congrArg List.reverse hxr) hne
    | cons c2 t2 => exact ⟨c2, t2, rfl⟩
  have hc2 : wsChar c2 = false := by
    apply hlast c2
    rw [← List.head?_reverse, hxr]
    rfl
  obtain ⟨v1, hB⟩ := dropWhile_through wsChar v.reverse x.reverse u1.reverse c2 t2 hxr hc2
  refine ⟨u1, v1.reverse, ?_⟩
  rw [trimChars, List.append_assoc, hA]
  have hrev : (u1 ++ (x ++ v)).reverse = v.reverse ++ (x.reverse ++ u1.reverse) := by
    simp [List.reverse_append, List.append_assoc]
  rw [hrev, hB]
  simp [List.reverse_append, List.append_assoc]

theorem trimChars_mono (big small : List Char) (h : ∃ u v, big = u ++ small ++ v) :
    ∃ u v, trimChars big = u ++ trimChars small ++ v := by
  by_cases hx : trimChars small = []
  · exact ⟨trimChars big, [], by simp [hx]⟩
  · obtain ⟨a, b, hdec⟩ := trimChars_decomposition small
    obtain ⟨u, v, rfl⟩ := h
    refine containsSeq_trimChars _ _ hx ?_ ?_ ?_
    · intro c t hct
      exact trimChars_head_not_ws small c t hct
    · intro c hc
      exact trimChars_getLast_not_ws small c hc
    · refine ⟨u ++ a, b ++ v, ?_⟩
      conv_lhs => rw [hdec]
      simp [List.append_assoc]

theorem joinSep_mem (sep : String) :
    ∀ (l : List String) (e : String), e ∈ l →
      ∃ u v, (joinSep sep l).data = u ++ e.data ++ v
  | [], e, h => absurd h (List.not_mem_nil e)
  | [x], e, h => by
    rw [List.mem_singleton] at h
    subst h
    exact ⟨[], [], by simp [joinSep]⟩
  | x :: y :: rest, e, h => by
    rcases List.mem_cons.mp h with h1 | h2
    · subst h1
      refine ⟨[], (sep ++ joinSep sep (y :: rest)).data, ?_⟩
      simp [joinSep, List.append_assoc]
    · obtain ⟨u, v, hav⟩ := joinSep_mem sep (y :: rest) e h2
      refine ⟨(x ++ sep).data ++ u, v, ?_⟩
      simp only [joinSep, String.data_append, hav]
      simp [List.append_assoc]

theorem trimChars_cons_not_ws (c : Char) (t : List Char) (hc : wsChar c = false) :
    trimChars (c :: t) ≠ [] := by
  rw [trimChars, List.dropWhile_cons, if_neg (by simp [hc])]
  intro h
  rw [List.reverse_eq_nil_iff, List.dropWhile_eq_nil_iff] at h
  have hcmem : c ∈ (c :: t).reverse := by simp
  have := h c hcmem
  rw [hc] at this
  exact Bool.false_ne_true this

theorem jsTrim_ne_empty_of_data_cons (s : String) (c : Char) (t : List Char)
    (hs : s.data = c :: t) (hc : wsChar c = false) : jsTrim s ≠ "" := by
  intro h
  have hd : trimChars s.data = ("" : String).data := congrArg String.data h
  rw [hs] at hd
  exact trimChars_cons_not_ws c t hc hd

theorem llmwsFailureMessage_trim_ne (errs : List String) :
    jsTrim (llmwsFailureMessage errs) ≠ "" := by
  unfold llmwsFailureMessage
  split
  · obtain ⟨t, ht⟩ : ∃ t,
        ("LLMWS endpoints failed: " ++ joinSep " | " errs).data = 'L' :: t := by
      rw [String.data_append]
      exact ⟨_, rfl⟩
    exact jsTrim_ne_empty_of_data_cons _ 'L' t ht (by decide)
  · exact jsTrim_ne_empty_of_data_cons _ 'L' _ rfl (by decide)

theorem runTargetsGo_all_fail (attemptOf : String → Except String LlmwsRunAttemptResult)
    (errOf : LlmwsTarget → String) :
    ∀ (targets : List LlmwsTarget) (errs invoked : List String),
      (∀ t1 ∈ targets, attemptOf t1.url = Except.error (errOf t1)) →
      runTargetsGo attemptOf targets errs invoked =
        (none, errs ++ targets.map (fun t1 => t1.url ++ ": " ++ errOf t1),
          invoked ++ targets.map (fun t1 => t1.url))
  | [], errs, invoked, _ => by simp [runTargetsGo]
  | t :: rest, errs, invoked, h => by
    have ht := h t (List.mem_cons_self t rest)
    simp only [runTargetsGo, ht]
    rw [runTargetsGo_all_fail attemptOf errOf rest _ _
      (fun t1 h1 => h t1 (List.mem_cons_of_mem t h1))]
    simp [List.append_assoc]

theorem runTargetsGo_first_success (attemptOf : String → Except String LlmwsRunAttemptResult)
    (errOf : LlmwsTarget → String) (t : LlmwsTarget) (ts2 : List LlmwsTarget)
    (r : LlmwsRunAttemptResult) (hok : attemptOf t.url = Except.ok r) :
    ∀ (ts1 : List LlmwsTarget) (errs invoked : List String),
      (∀ t1 ∈ ts1, attemptOf t1.url = Except.error (errOf t1)) →
      runTargetsGo attemptOf (ts1 ++ t :: ts2) errs invoked =
        (some r, errs ++ ts1.map (fun t1 => t1.url ++ ": " ++ errOf t1),
          invoked ++ ts1.map (fun t1 => t1.url) ++ [t.url])
  | [], errs, invoked, _ => by
    simp only [List.nil_append, runTargetsGo, hok]
    simp
  | t1 :: ts1, errs, invoked, h => by
    have ht1 := h t1 (List.mem_cons_self t1 ts1)
    simp only [List.cons_append, runTargetsGo, ht1]
    simp only [List.append_eq]
    rw [runTargetsGo_first_success attemptOf errOf t ts2 r hok ts1 _ _
      (fun t2 h2 => h t2 (List.mem_cons_of_mem t1 h2))]
    simp [List.append_assoc]

/-- C5: the orchestrator attempts the resolved targets strictly sequentially
in list order, returning the first successful attempt's result without
invoking any later target (the third component of `runTargets` lists the
invoked target URLs in order); when every target fails it raises a single
classified failure whose (trimmed) message contains every target's individual
failure detail. -/
theorem failover_sequential_first_success_and_aggregation
    (attemptOf : String → Except String LlmwsRunAttemptResult)
    (errOf : LlmwsTarget → String) (provider model : String) :
    (∀ (ts1 : List LlmwsTarget) (t : LlmwsTarget) (ts2 : List LlmwsTarget)
        (r : LlmwsRunAttemptResult),
      (∀ t1 ∈ ts1, attemptOf t1.url = Except.error (errOf t1)) →
      attemptOf t.url = Except.ok r →
      runTargets attemptOf (ts1 ++ t :: ts2) =
        (some r, ts1.map (fun t1 => t1.url ++ ": " ++ errOf t1),
          ts1.map (fun t1 => t1.url) ++ [t.url]) ∧
      runLlmwsAgentFailover attemptOf (ts1 ++ t :: ts2) provider model = Except.ok r) ∧
    (∀ targets : List LlmwsTarget,
      (∀ t1 ∈ targets, attemptOf t1.url = Except.error (errOf t1)) →
      runTargets attemptOf targets =
        (none, targets.map (fun t1 => t1.url ++ ": " ++ errOf t1),
          targets.map (fun t1 => t1.url)) ∧
      ∃ F, runLlmwsAgentFailover attemptOf targets provider model = Except.error F ∧
        F.message = jsTrim (llmwsFailureMessage
          (targets.map (fun t1 => t1.url ++ ": " ++ errOf t1))) ∧
        ∀ t1 ∈ targets, ∃ u v,
          F.message.data = u ++ trimChars (t1.url ++ ": " ++ errOf t1).data ++ v) := by
  constructor
  · intro ts1 t ts2 r hfail hok
    have hrun : runTargets attemptOf (ts1 ++ t :: ts2) =
        (some r, ts1.map (fun t1 => t1.url ++ ": " ++ errOf t1),
          ts1.map (fun t1 => t1.url) ++ [t.url]) := by
      rw [runTargets, runTargetsGo_first_success attemptOf errOf t ts2 r hok ts1 [] [] hfail]
      simp
    refine ⟨hrun, ?_⟩
    rw [runLlmwsAgentFailover, hrun]
  · intro targets hfail
    have hrun : runTargets attemptOf targets =
        (none, targets.map (fun t1 => t1.url ++ ": " ++ errOf t1),
          targets.map (fun t1 => t1.url)) := by
      rw [runTargets, runTargetsGo_all_fail attemptOf errOf targets [] [] hfail]
      simp
    refine ⟨hrun, ?_⟩
    set errs := targets.map (fun t1 => t1.url ++ ": " ++ errOf t1) with herrs
    have hmsgeq : (toFailoverError (llmwsFailureMessage errs) provider model).message =
        jsTrim (llmwsFailureMessage errs) := by
      show (if jsTrim (llmwsFailureMessage errs) = "" then "LLMWS request failed"
          else jsTrim (llmwsFailureMessage errs)) = jsTrim (llmwsFailureMessage errs)
      rw [if_neg (llmwsFailureMessage_trim_ne errs)]
    refine ⟨toFailoverError (llmwsFailureMessage errs) provider model, ?_, hmsgeq, ?_⟩
    · rw [runLlmwsAgentFailover, hrun]
    · intro t1 ht1
      have hdet : (t1.url ++ ": " ++ errOf t1) ∈ errs := by
        rw [herrs]
        exact List.mem_map_of_mem _ ht1
      obtain ⟨u0, v0, hj⟩ := joinSep_mem " | " errs _ hdet
      have hlen : 0 < errs.length := by
        rw [herrs]
        simpa using List.length_pos_of_mem (List.mem_map_of_mem (fun x => x.url) ht1)
      have hdata : (llmwsFailureMessage errs).data =
          (("LLMWS endpoints failed: ").data ++ u0) ++
            (t1.url ++ ": " ++ errOf t1).data ++ v0 := by
        rw [llmwsFailureMessage, if_pos hlen, String.data_append, hj]
        simp [List.append_assoc]
      have hmono := trimChars_mono (llmwsFailureMessage errs).data
        (t1.url ++ ": " ++ errOf t1).data ⟨_, _, hdata⟩
      obtain ⟨u, v, hm⟩ := hmono
      refine ⟨u, v, ?_⟩
      rw [hmsgeq]
      exact hm

/-- Witness for `failover_sequential_first_success_and_aggregation` on
concrete targets: `ws://a` fails, `ws://b` succeeds, `ws://c` is never
invoked; and with `ws://a` alone every target fails and the classified
failure's message carries the per-target detail. -/
theorem failover_sequential_witness :
    (runTargets attemptOfW [targA, targB, targC] =
      (some { text := "ok", sessionId := none, usage := none },
        [targA].map (fun t1 => t1.url ++ ": " ++ "connect timeout"),
        [targA].map (fun t1 => t1.url) ++ [targB.url]) ∧
      runLlmwsAgentFailover attemptOfW [targA, targB, targC] "llmws" "m" =
        Except.ok { text := "ok", sessionId := none, usage := none }) ∧
    (runTargets attemptOfW [targA] =
      (none, [targA].map (fun t1 => t1.url ++ ": " ++ "connect timeout"),
        [targA].map (fun t1 => t1.url)) ∧
      ∃ F, runLlmwsAgentFailover attemptOfW [targA] "llmws" "m" = Except.error F ∧
        F.message = jsTrim (llmwsFailureMessage
          ([targA].map (fun t1 => t1.url ++ ": " ++ "connect timeout"))) ∧
        ∀ t1 ∈ [targA], ∃ u v,
          F.message.data = u ++ trimChars (t1.url ++ ": " ++ "connect timeout").data ++ v) := by
  obtain ⟨h1, h2⟩ := failover_sequential_first_success_and_aggregation attemptOfW
    (fun _ => "connect timeout") "llmws" "m"
  constructor
  · exact h1 [targA] targB [targC] { text := "ok", sessionId := none, usage := none }
      (by
        intro t1 h1
        rw [List.mem_singleton] at h1
        subst h1
        rfl)
      (by rfl)
  · exact h2 [targA]
      (by
        intro t1 h1
        rw [List.mem_singleton] at h1
        subst h1
        rfl)

theorem capMatchCountIn_le (pset : List String) (t : LlmwsTarget) :
    capMatchCountIn pset t ≤ pset.length :=
  List.length_filter_le _ pset

theorem targetLe_iff (preferred : List String) (l r : LlmwsTarget) :
    targetLe preferred l r = true ↔
      targetScore preferred r ≤ targetScore preferred l := by
  have hlm := capMatchCountIn_le (preferredTagSet preferred) l
  have hrm := capMatchCountIn_le (preferredTagSet preferred) r
  unfold targetLe targetCmp targetScore
  rw [decide_eq_true_iff]
  by_cases hla : capMatchCountIn (preferredTagSet preferred) l =
      (preferredTagSet preferred).length <;>
    by_cases hra : capMatchCountIn (preferredTagSet preferred) r =
        (preferredTagSet preferred).length <;>
      simp only [hla, hra, beq_iff_eq, if_pos, if_neg, beq_self_eq_true,
        decide_eq_true_eq] <;>
      simp [hla, hra] <;>
      omega

theorem targetLe_total (preferred : List String) (a b : LlmwsTarget) :
    targetLe preferred a b || targetLe preferred b a := by
  rw [Bool.or_eq_true, targetLe_iff, targetLe_iff]
  omega

theorem targetLe_trans (preferred : List String) (a b c : LlmwsTarget)
    (h1 : targetLe preferred a b) (h2 : targetLe preferred b c) :
    targetLe preferred a c := by
  rw [targetLe_iff] at h1 h2 ⊢
  omega

theorem pairwise_of_rel_all {R : LlmwsTarget → LlmwsTarget → Prop}
    (h : ∀ a b, R a b) : ∀ l : List LlmwsTarget, l.Pairwise R
  | [] => List.Pairwise.nil
  | a :: rest => List.Pairwise.cons (fun b _ => h a b) (pairwise_of_rel_all h rest)

theorem sortTargets_concrete :
    sortTargetsByCapabilities [targFast, targVision] ["vision"] = [targVision, targFast] := by
  have hfv : targetLe ["vision"] targFast targVision = false := by decide
  have hsorted := List.sorted_mergeSort
    (targetLe_trans ["vision"]) (targetLe_total ["vision"]) [targFast, targVision]
  obtain ⟨l₁, l₂, h1, h2, -⟩ := List.mergeSort_cons
    (targetLe_trans ["vision"]) (targetLe_total ["vision"]) targFast [targVision]
  rw [List.mergeSort_singleton] at h2
  have hgoal : List.mergeSort [targFast, targVision] (targetLe ["vision"]) =
      [targVision, targFast] := by
    cases l₁ with
    | nil =>
      rw [List.nil_append] at h2
      subst h2
      rw [h1] at hsorted
      rw [List.nil_append] at hsorted
      rw [List.pairwise_cons] at hsorted
      have := hsorted.1 targVision (List.mem_cons_self _ _)
      rw [hfv] at this
      exact absurd this (Bool.false_ne_true)
    | cons x l₁t =>
      rw [List.cons_append] at h2
      injection h2 with hx htail
      subst hx
      rcases List.append_eq_nil.mp htail.symm with ⟨h1t, h2t⟩
      subst h1t
      subst h2t
      rw [h1]
      rfl
  unfold sortTargetsByCapabilities
  rw [if_neg (by simp)]
  exact hgoal

theorem targetScore_nil (t : LlmwsTarget) : targetScore [] t = 1 := rfl

/-- C7: when preferred capability tags are declared, the deduplicated target
list is stably reordered by descending match score: the result is a
permutation of the input, sorted by descending `targetScore` (full match of
all preferred tags first, then raw matched count), any pair already in
weakly-correct score order keeps its relative order (stability), and in the
concrete two-target scenario where only the second target satisfies the
required capability, the second is ordered first and the orchestrator calls
it without ever invoking the first. -/
theorem capability_sort_spec (targets : List LlmwsTarget) (preferred : List String) :
    List.Perm (sortTargetsByCapabilities targets preferred) targets ∧
    (sortTargetsByCapabilities targets preferred).Pairwise
      (fun l r => targetScore preferred r ≤ targetScore preferred l) ∧
    (∀ a b, targetLe preferred a b = true → List.Sublist [a, b] targets →
      List.Sublist [a, b] (sortTargetsByCapabilities targets preferred)) ∧
    sortTargetsByCapabilities [targFast, targVision] ["vision"] = [targVision, targFast] ∧
    runTargets attemptVision [targVision, targFast] =
      (some visionResult, [], [targVision.url]) := by
  refine ⟨?_, ?_, ?_, sortTargets_concrete, by rfl⟩
  · unfold sortTargetsByCapabilities
    split
    · exact List.Perm.refl targets
    · exact List.mergeSort_perm targets _
  · unfold sortTargetsByCapabilities
    split
    · rename_i h
      rcases h with h | h
      · rw [List.length_eq_zero] at h
        subst h
        apply pairwise_of_rel_all
        intro a b
        rw [targetScore_nil, targetScore_nil]
      · cases targets with
        | nil => exact List.Pairwise.nil
        | cons t rest =>
          cases rest with
          | nil => simp
          | cons t2 rest2 => simp at h
    · have hs := List.sorted_mergeSort (targetLe_trans preferred)
        (targetLe_total preferred) targets
      exact hs.imp (fun hab => (targetLe_iff preferred _ _).mp hab)
  · intro a b hab hsub
    unfold sortTargetsByCapabilities
    split
    · exact hsub
    · exact List.pair_sublist_mergeSort (targetLe_trans preferred)
        (targetLe_total preferred) hab hsub

/-- Witness for `capability_sort_spec` at the concrete two-target scenario
used by the repository's tests. -/
theorem capability_sort_spec_witness :
    List.Perm (sortTargetsByCapabilities [targFast, targVision] ["vision"])
      [targFast, targVision] ∧
    (sortTargetsByCapabilities [targFast, targVision] ["vision"]).Pairwise
      (fun l r => targetScore ["vision"] r ≤ targetScore ["vision"] l) ∧
    (∀ a b, targetLe ["vision"] a b = true →
      List.Sublist [a, b] [targFast, targVision] →
      List.Sublist [a, b] (sortTargetsByCapabilities [targFast, targVision] ["vision"])) ∧
    sortTargetsByCapabilities [targFast, targVision] ["vision"] = [targVision, targFast] ∧
    runTargets attemptVision [targVision, targFast] =
      (some visionResult, [], [targVision.url]) :=
  capability_sort_spec [targFast, targVision] ["vision"]

end Zigbot
